import Mathlib

/-! # Recommendations admin page: request/response synchronisation

A shallow embedding of `service/static/js/rest_api.js`.  The page is a state
holding the text of the five bound form inputs, the content of the flash
message area and the markup of the search result area.  Every click handler is
a function from the page to the page it leaves behind together with the
settings object handed to `$.ajax`; every `done` / `fail` callback is a
function from the transport outcome and the page to a completion.

Conventions of the embedding.

* Input values are JavaScript strings; they are embedded as `String`.  A string
  is truthy exactly when it is not empty.
* Template literals are embedded as concatenations in the same order.
* A JavaScript number is `NaN`, an infinity, or a finite double; only doubles
  holding an integer occur here and they are embedded by that integer.  Rounding
  of an integer to the nearest double and the decimal text of a double follow
  the language definition; the sign of zero is not kept, since both zeros have
  the text "0".  A number of a response is given by the integer its JSON
  numeral denotes and is rounded when read.
* jQuery `.val(x)` stores the text of `x`; `.empty()` followed by `.append(m)`
  leaves the markup `m` as the content of the element.  The flash area and the
  result area are embedded by the markup they were given; how a browser parses
  that markup is outside the embedding.
* A record of a success response is a JSON object with the fields of the data
  model; a failure response is the jqXHR object with its `responseJSON`.
-/

namespace RestApi

/-! ## Page state -/

/-- The DOM state the script reads and writes, one field per element id. -/
structure Page where
  rec_id : String
  rec_name : String
  product_id : String
  recommended_product_id : String
  rec_type : String
  flash_message : String
  search_results : String
  deriving DecidableEq, Repr

/-- The settings object passed to `$.ajax`. -/
structure AjaxSettings where
  type : String
  url : String
  contentType : String
  data : String
  deriving DecidableEq, Repr

/-- Truthiness of a JavaScript string: `if (s)` runs its branch iff `s` is not empty. -/
def truthy (s : String) : Bool := s != ""

/-- A recommendation record as decoded from a JSON response body. -/
structure Recommendation where
  id : Int
  name : String
  product_id : Int
  recommended_product_id : Int
  recommendation_type : String
  created_at : String
  updated_at : String
  deriving DecidableEq, Repr

/-- The decoded JSON body of a failed response; `message` is `none` when the
object has no such property. -/
structure ErrorBody where
  message : Option String
  deriving DecidableEq, Repr

/-- The jqXHR object handed to a `fail` callback.  `responseJSON` is `none` when
jQuery could not decode the body as JSON and left the property undefined. -/
structure JqXHR where
  responseJSON : Option ErrorBody
  deriving DecidableEq, Repr

/-- How a callback ends: it runs to its end, or an exception leaves it; either
way the page is the one it had written so far. -/
inductive Completion where
  | returned (p : Page)
  | threw (p : Page)
  deriving DecidableEq, Repr

/-- The page a callback leaves behind. -/
def Completion.page : Completion → Page
  | .returned p => p
  | .threw p => p

/-! ## Numbers -/

/-- A JavaScript Number as far as the script meets one: `NaN`, an infinity, or a
finite number holding an integer. -/
inductive JSNumber where
  | nan
  | infinity (negative : Bool)
  | fin (v : Int)
  deriving DecidableEq, Repr

/-- Floor of the binary logarithm, by halving; `fuel` bounds the number of halvings. -/
def log2Fuel : Nat → Nat → Nat
  | 0, _ => 0
  | fuel + 1, n => if 2 ≤ n then log2Fuel fuel (n / 2) + 1 else 0

/-- The natural number nearest to `n` that an IEEE double holds (ties to the even
significand), or `none` when `n` rounds past the largest finite double. -/
def roundToDouble (n : Nat) : Option Nat :=
  if n ≤ 2 ^ 53 then some n
  else
    let e := log2Fuel n n - 52
    let q := n / 2 ^ e
    let r := n % 2 ^ e
    let half := 2 ^ (e - 1)
    let q := if half < r ∨ (r = half ∧ q % 2 = 1) then q + 1 else q
    let v := q * 2 ^ e
    if e + log2Fuel q q < 1024 then some v else none

/-- The Number value of a mathematical integer. -/
def toNumber (z : Int) : JSNumber :=
  match roundToDouble z.natAbs with
  | some v => .fin (if z < 0 then -(v : Int) else v)
  | none => .infinity (decide (z < 0))

/-- For a double `v` and a digit count `k`, the `k`-digit significand `s` and the
decimal length `n` with `s * 10 ^ (n - k)` rounding to `v`, nearest to `v` when
two significands qualify; `none` when `k` digits are too few. -/
def shortestAt (v k : Nat) : Option (Nat × Nat) :=
  let n := (Nat.repr v).length
  let p := 10 ^ (n - k)
  let lo := v / p
  let hi := lo + 1
  let okLo := roundToDouble (lo * p) = some v
  let okHi := roundToDouble (hi * p) = some v
  if okLo ∧ okHi then
    if v - lo * p < hi * p - v then some (lo, n)
    else if hi * p - v < v - lo * p then some (hi, n)
    else if lo % 2 = 0 then some (lo, n) else some (hi, n)
  else if okLo then some (lo, n)
  else if okHi then (if hi = 10 ^ k then some (10 ^ (k - 1), n + 1) else some (hi, n))
  else none

/-- The least digit count, tried from 1 up, at which a significand exists. -/
def shortestFrom (v : Nat) : Nat → Nat → Option (Nat × Nat × Nat)
  | 0, _ => none
  | fuel + 1, k =>
    match shortestAt v k with
    | some (s, n) => some (k, s, n)
    | none => shortestFrom v fuel (k + 1)

/-- The text of a positive integer-valued double (Number::toString, radix 10). -/
def positiveNumberText (v : Nat) : String :=
  if v ≤ 2 ^ 53 then Nat.repr v
  else
    match shortestFrom v 17 1 with
    | none => Nat.repr v
    | some (k, s, n) =>
      let digits := (Nat.repr s).data
      if n ≤ 21 then String.mk (digits ++ List.replicate (n - k) '0')
      else if k = 1 then String.mk digits ++ "e+" ++ Nat.repr (n - 1)
      else String.mk (digits.take 1) ++ "." ++ String.mk (digits.drop 1) ++ "e+"
        ++ Nat.repr (n - 1)

/-- The text of a Number, as string conversion produces it. -/
def numberToString : JSNumber → String
  | .nan => "NaN"
  | .infinity false => "Infinity"
  | .infinity true => "-Infinity"
  | .fin v => if v < 0 then "-" ++ positiveNumberText v.natAbs else positiveNumberText v.natAbs

/-- The text shown for a number of a response whose JSON numeral denotes `n`. -/
def numberText (n : Int) : String := numberToString (toNumber n)

/-! ## Utility functions (lines 7-29) -/

/-- Updates the form with data from the response. -/
def update_form_data (res : Recommendation) (p : Page) : Page :=
  { p with
    rec_id := numberText res.id
    rec_name := res.name
    product_id := numberText res.product_id
    recommended_product_id := numberText res.recommended_product_id
    rec_type := res.recommendation_type }

/-- Clears all form fields. -/
def clear_form_data (p : Page) : Page :=
  { p with
    rec_id := ""
    rec_name := ""
    product_id := ""
    recommended_product_id := ""
    rec_type := "" }

/-- Updates the flash message area: the area is emptied, then the message is
appended.  Appending `undefined` (`none`) inserts nothing. -/
def flash_message (message : Option String) (p : Page) : Page :=
  let p := { p with flash_message := "" }
  match message with
  | some m => { p with flash_message := p.flash_message ++ m }
  | none => p

/-! ## `parseInt` (ECMAScript 19.2.5, radix argument absent) -/

/-- White space and line terminator code points stripped from the front of the input. -/
def isStrWhiteSpaceChar (c : Char) : Bool :=
  c.toNat ∈ [0x09, 0x0A, 0x0B, 0x0C, 0x0D, 0x20, 0xA0, 0x1680, 0x2000, 0x2001, 0x2002,
    0x2003, 0x2004, 0x2005, 0x2006, 0x2007, 0x2008, 0x2009, 0x200A, 0x2028, 0x2029,
    0x202F, 0x205F, 0x3000, 0xFEFF]

/-- The value of a character read as a digit, letters standing for ten and above. -/
def digitValue (c : Char) : Option Nat :=
  if '0' ≤ c ∧ c ≤ '9' then some (c.toNat - 48)
  else if 'a' ≤ c ∧ c ≤ 'z' then some (c.toNat - 87)
  else if 'A' ≤ c ∧ c ≤ 'Z' then some (c.toNat - 55)
  else none

/-- Whether a character is a digit of the given radix. -/
def isRadixDigit (R : Nat) (c : Char) : Bool :=
  match digitValue c with
  | some d => d < R
  | none => false

/-- The integer denoted by a run of radix-`R` digits, most significant first. -/
def digitsValue (R : Nat) (Z : List Char) : Nat :=
  Z.foldl (fun acc c => acc * R + (digitValue c).getD 0) 0

/-- Steps 8-9 of `parseInt` with no radix given: a leading `0x` or `0X` is
removed and selects radix 16, anything else is read in radix 10. -/
def stripPrefix (S : List Char) : Nat × List Char :=
  match S with
  | '0' :: 'x' :: rest => (16, rest)
  | '0' :: 'X' :: rest => (16, rest)
  | _ => (10, S)

/-- The result of `parseInt(string)`: the digits are read exactly and the integer
they denote, with its sign, is rounded to a Number. -/
def parseInt (string : String) : JSNumber :=
  let S := string.data.dropWhile isStrWhiteSpaceChar
  let sign : Int := if S.head? = some '-' then -1 else 1
  let S := if S.head? = some '+' ∨ S.head? = some '-' then S.tail else S
  let RS := stripPrefix S
  let Z := RS.2.takeWhile (isRadixDigit RS.1)
  if Z = [] then .nan else toNumber (sign * (digitsValue RS.1 Z : Int))

/-! ## `JSON.stringify` on the request payload -/

/-- The values a request payload holds: a string or a number. -/
inductive JSValue where
  | str (s : String)
  | num (n : JSNumber)
  deriving DecidableEq, Repr

/-- An object literal: its properties in insertion order. -/
abbrev JSObject := List (String × JSValue)

/-- One lower-case hexadecimal digit. -/
def hexDigit (n : Nat) : Char :=
  if n < 10 then Char.ofNat (48 + n) else Char.ofNat (87 + n)

/-- The two-character escape: a reverse solidus followed by the given character. -/
def shortEscape (c : Char) : String := String.mk [Char.ofNat 0x5C, c]

/-- The JSON escape of one character inside a quoted string. -/
def quoteJSONChar (c : Char) : String :=
  if c.toNat = 0x08 then shortEscape 'b'
  else if c.toNat = 0x09 then shortEscape 't'
  else if c.toNat = 0x0A then shortEscape 'n'
  else if c.toNat = 0x0C then shortEscape 'f'
  else if c.toNat = 0x0D then shortEscape 'r'
  else if c.toNat = 0x22 then shortEscape (Char.ofNat 0x22)
  else if c.toNat = 0x5C then shortEscape (Char.ofNat 0x5C)
  else if c.toNat < 0x20 then
    shortEscape 'u' ++ "00" ++ String.singleton (hexDigit (c.toNat / 16))
      ++ String.singleton (hexDigit (c.toNat % 16))
  else String.singleton c

/-- The JSON text of a string: quoted, with the mandatory escapes. -/
def quoteJSONString (s : String) : String :=
  String.singleton (Char.ofNat 0x22) ++ String.join (s.data.map quoteJSONChar)
    ++ String.singleton (Char.ofNat 0x22)

/-- The JSON text of a payload value; a number that is not finite serialises
as `null`. -/
def serializeJSONValue : JSValue → String
  | .str s => quoteJSONString s
  | .num (.fin v) => numberToString (.fin v)
  | .num _ => "null"

/-- The JSON text of an object literal, `JSON.stringify(data)`. -/
def JSON.stringify (data : JSObject) : String :=
  "\x7b" ++ ",".intercalate
      (data.map fun kv => quoteJSONString kv.1 ++ ":" ++ serializeJSONValue kv.2)
    ++ "\x7d"

/-! ## Create (`#create-btn`, lines 38-74) -/

/-- The `data` object the create click handler builds (lines 50-55). -/
def create_data (p : Page) : JSObject :=
  let name := p.rec_name
  let product_id := p.product_id
  let recommended_product_id := p.recommended_product_id
  let rec_type := p.rec_type
  [("name", .str name),
   ("product_id", .num (parseInt product_id)),
   ("recommended_product_id", .num (parseInt recommended_product_id)),
   ("recommendation_type", .str rec_type)]

/-- The create click handler up to the `$.ajax` call. -/
def create_btn_click (p : Page) : Page × AjaxSettings :=
  let data := create_data p
  ({ p with flash_message := "" },
   { type := "POST"
     url := "/recommendations"
     contentType := "application/json"
     data := JSON.stringify data })

/-- The `ajax.done` callback of create. -/
def create_ajax_done (res : Recommendation) (p : Page) : Page :=
  flash_message (some "Success") (update_form_data res p)

/-- The `ajax.fail` callback of create.  Reading `message` off an undefined
`responseJSON` raises a `TypeError` before anything is written. -/
def create_ajax_fail (res : JqXHR) (p : Page) : Completion :=
  match res.responseJSON with
  | none => .threw p
  | some body => .returned (flash_message body.message p)

/-! ## Update (`#update-btn`, lines 84-117) -/

/-- The `data` object the update click handler builds (lines 92-97). -/
def update_data (p : Page) : JSObject :=
  let name := p.rec_name
  let product_id := p.product_id
  let recommended_product_id := p.recommended_product_id
  let rec_type := p.rec_type
  [("name", .str name),
   ("product_id", .num (parseInt product_id)),
   ("recommended_product_id", .num (parseInt recommended_product_id)),
   ("recommendation_type", .str rec_type)]

/-- The update click handler up to the `$.ajax` call. -/
def update_btn_click (p : Page) : Page × AjaxSettings :=
  let rec_id := p.rec_id
  let data := update_data p
  ({ p with flash_message := "" },
   { type := "PUT"
     url := "/recommendations/" ++ rec_id
     contentType := "application/json"
     data := JSON.stringify data })

/-- The `ajax.done` callback of update. -/
def update_ajax_done (res : Recommendation) (p : Page) : Page :=
  flash_message (some "Success") (update_form_data res p)

/-- The `ajax.fail` callback of update. -/
def update_ajax_fail (res : JqXHR) (p : Page) : Completion :=
  match res.responseJSON with
  | none => .threw p
  | some body => .returned (flash_message body.message p)

/-! ## Retrieve (`#retrieve-btn`, lines 126-149) -/

/-- The retrieve click handler up to the `$.ajax` call. -/
def retrieve_btn_click (p : Page) : Page × AjaxSettings :=
  let rec_id := p.rec_id
  ({ p with flash_message := "" },
   { type := "GET"
     url := "/recommendations/" ++ rec_id
     contentType := "application/json"
     data := "" })

/-- The `ajax.done` callback of retrieve. -/
def retrieve_ajax_done (res : Recommendation) (p : Page) : Page :=
  flash_message (some "Success") (update_form_data res p)

/-- The `ajax.fail` callback of retrieve: the form is cleared first, then the
message is read off the response. -/
def retrieve_ajax_fail (res : JqXHR) (p : Page) : Completion :=
  let p := clear_form_data p
  match res.responseJSON with
  | none => .threw p
  | some body => .returned (flash_message body.message p)

/-! ## Delete (`#delete-btn`, lines 158-180) -/

/-- The delete click handler up to the `$.ajax` call. -/
def delete_btn_click (p : Page) : Page × AjaxSettings :=
  let rec_id := p.rec_id
  ({ p with flash_message := "" },
   { type := "DELETE"
     url := "/recommendations/" ++ rec_id
     contentType := "application/json"
     data := "" })

/-- The `ajax.done` callback of delete; the response is not read. -/
def delete_ajax_done {α : Type} (_res : α) (p : Page) : Page :=
  flash_message (some "Recommendation has been Deleted!") (clear_form_data p)

/-- The `ajax.fail` callback of delete; the response is not read. -/
def delete_ajax_fail (_res : JqXHR) (p : Page) : Page :=
  flash_message (some "Server error!") p

/-! ## Clear (`#clear-btn`, lines 188-192) -/

/-- The clear click handler; it issues no request. -/
def clear_btn_click (p : Page) : Page :=
  let p := { p with rec_id := "" }
  let p := { p with flash_message := "" }
  clear_form_data p

/-! ## Search (`#search-btn`, lines 199-277) -/

/-- The `queryString` built by lines 206-231 of the search click handler. -/
def search_queryString (p : Page) : String :=
  let name := p.rec_name
  let product_id := p.product_id
  let recommended_product_id := p.recommended_product_id
  let rec_type := p.rec_type
  let queryString := ""
  let queryString :=
    if truthy name then queryString ++ ("name=" ++ name) else queryString
  let queryString :=
    if truthy product_id then
      if queryString.length > 0 then queryString ++ ("&product_id=" ++ product_id)
      else queryString ++ ("product_id=" ++ product_id)
    else queryString
  let queryString :=
    if truthy recommended_product_id then
      if queryString.length > 0 then
        queryString ++ ("&recommended_product_id=" ++ recommended_product_id)
      else queryString ++ ("recommended_product_id=" ++ recommended_product_id)
    else queryString
  let queryString :=
    if truthy rec_type then
      if queryString.length > 0 then queryString ++ ("&recommendation_type=" ++ rec_type)
      else queryString ++ ("recommendation_type=" ++ rec_type)
    else queryString
  queryString

/-- The search click handler up to the `$.ajax` call: the flash area is
emptied and a GET request for the filtered collection is issued. -/
def search_btn_click (p : Page) : Page × AjaxSettings :=
  let queryString := search_queryString p
  ({ p with flash_message := "" },
   { type := "GET"
     url := "/recommendations?" ++ queryString
     contentType := "application/json"
     data := "" })

/-- The opening markup of the result table, up to `<tbody>` (lines 244-253). -/
def search_table_head : String :=
  "<table class=\"table table-striped\" cellpadding=\"10\">"
    ++ "<thead><tr>"
    ++ "<th class=\"col-md-1\">ID</th>"
    ++ "<th class=\"col-md-2\">Name</th>"
    ++ "<th class=\"col-md-1\">Product ID</th>"
    ++ "<th class=\"col-md-1\">Recommended Product ID</th>"
    ++ "<th class=\"col-md-2\">Recommendation Type</th>"
    ++ "<th class=\"col-md-2\">Created Time</th>"
    ++ "<th class=\"col-md-2\">Updated Time</th>"
    ++ "</tr></thead><tbody>"

/-- The markup of the row for record `rec` at index `i` (line 257). -/
def search_table_row (i : Nat) (rec : Recommendation) : String :=
  "<tr id=\"row_" ++ toString i ++ "\"><td>" ++ numberText rec.id
    ++ "</td><td>" ++ rec.name
    ++ "</td><td>" ++ numberText rec.product_id
    ++ "</td><td>" ++ numberText rec.recommended_product_id
    ++ "</td><td>" ++ rec.recommendation_type
    ++ "</td><td>" ++ rec.created_at
    ++ "</td><td>" ++ rec.updated_at ++ "</td></tr>"

/-- The `for` loop of lines 255-261, entered at index `i` with the records from
index `i` on still to visit.  `firstRec` is `none` while it holds its initial
empty string. -/
def search_loop : List Recommendation → Nat → String → Option Recommendation →
    String × Option Recommendation
  | [], _, table, firstRec => (table, firstRec)
  | rec :: rest, i, table, firstRec =>
    let table := table ++ search_table_row i rec
    let firstRec := if i == 0 then some rec else firstRec
    search_loop rest (i + 1) table firstRec

/-- The `ajax.done` callback of search.  A record is an object, so the test
`firstRec != ""` holds exactly when the loop assigned a record. -/
def search_ajax_done (res : List Recommendation) (p : Page) : Page :=
  let p := { p with search_results := "" }
  let table := search_table_head
  let firstRec : Option Recommendation := none
  let (table, firstRec) := search_loop res 0 table firstRec
  let table := table ++ "</tbody></table>"
  let p := { p with search_results := p.search_results ++ table }
  let p :=
    match firstRec with
    | some rec => update_form_data rec p
    | none => p
  flash_message (some "Success") p

/-- The `ajax.fail` callback of search. -/
def search_ajax_fail (res : JqXHR) (p : Page) : Completion :=
  match res.responseJSON with
  | none => .threw p
  | some body => .returned (flash_message body.message p)

/-! ## Specification vocabulary -/

/-- The four search filters of a page in the fixed field order, as key and value. -/
def searchFields (p : Page) : List (String × String) :=
  [("name", p.rec_name), ("product_id", p.product_id),
   ("recommended_product_id", p.recommended_product_id),
   ("recommendation_type", p.rec_type)]

/-- The filters whose form field holds a non-empty value, in field order. -/
def activeFilters (p : Page) : List (String × String) :=
  (searchFields p).filter fun kv => kv.2 ≠ ""

/-- A page with the given five form fields and nothing shown. -/
def formPage (rec_id rec_name product_id recommended_product_id rec_type : String) : Page :=
  { rec_id := rec_id, rec_name := rec_name, product_id := product_id,
    recommended_product_id := recommended_product_id, rec_type := rec_type,
    flash_message := "", search_results := "" }

/-- The rows of the result table for the records from index `i` on. -/
def tableRows : Nat → List Recommendation → List String
  | _, [] => []
  | i, rec :: rest => search_table_row i rec :: tableRows (i + 1) rest


/-- Whether a character list opens with the hexadecimal prefix `0x` or `0X`. -/
def hasHexPrefix : List Char → Bool
  | '0' :: 'x' :: _ => true
  | '0' :: 'X' :: _ => true
  | _ => false

/-- The factor a sign prefix contributes: minus one for "-", one otherwise. -/
def signOf (sg : List Char) : Int := if sg = ['-'] then -1 else 1

/-- Whether a character is a hexadecimal digit. -/
def isHexDigitChar (c : Char) : Bool :=
  c.isDigit || (decide ('a' ≤ c) && decide (c ≤ 'f')) || (decide ('A' ≤ c) && decide (c ≤ 'F'))

/-! ### Reading back the markup and the JSON text -/

/-- Removes a literal from the front of the input; `none` when the input does
not begin with it. -/
def expect : List Char → List Char → Option (List Char)
  | [], s => some s
  | _ :: _, [] => none
  | c :: cs, d :: ds => if c = d then expect cs ds else none

/-- The characters a number's text is made of. -/
def isNumberChar (c : Char) : Bool :=
  c.isDigit || decide (c ∈ ['.', 'e', '+', '-', 'I', 'n', 'f', 'i', 't', 'y', 'N', 'a'])

/-- The character a two-character JSON escape stands for. -/
def unescapeJSONChar (e : Char) : Option Char :=
  if e = 'b' then some (Char.ofNat 0x08)
  else if e = 't' then some (Char.ofNat 0x09)
  else if e = 'n' then some (Char.ofNat 0x0A)
  else if e = 'f' then some (Char.ofNat 0x0C)
  else if e = 'r' then some (Char.ofNat 0x0D)
  else if e.toNat = 0x22 ∨ e.toNat = 0x5C ∨ e = '/' then some e
  else none

/-- Reads the inside of a JSON string literal up to its closing quotation mark,
undoing the escapes; gives the characters read and the input after the mark. -/
def readJSONChars : List Char → Option (List Char × List Char)
  | [] => none
  | c :: rest =>
    if c.toNat = 0x22 then some ([], rest)
    else if c.toNat = 0x5C then
      match rest with
      | [] => none
      | e :: rest1 =>
        if e = 'u' then
          match rest1 with
          | a :: b :: c2 :: d :: rest2 =>
            match digitValue a, digitValue b, digitValue c2, digitValue d with
            | some va, some vb, some vc, some vd =>
              if va < 16 ∧ vb < 16 ∧ vc < 16 ∧ vd < 16 then
                (readJSONChars rest2).map fun sr =>
                  (Char.ofNat (((va * 16 + vb) * 16 + vc) * 16 + vd) :: sr.1, sr.2)
              else none
            | _, _, _, _ => none
          | _ => none
        else
          match unescapeJSONChar e with
          | some ch => (readJSONChars rest1).map fun sr => (ch :: sr.1, sr.2)
          | none => none
    else if c.toNat < 0x20 then none
    else (readJSONChars rest).map fun sr => (c :: sr.1, sr.2)

/-- Reads a JSON string literal from the front of the input. -/
def readJSONString : List Char → Option (String × List Char)
  | [] => none
  | c :: rest =>
    if c.toNat = 0x22 then (readJSONChars rest).map fun sr => (String.mk sr.1, sr.2)
    else none

/-- What a member of a JSON object holds: a string, or the literal text of a
number or of `null`. -/
inductive JSONField where
  | string (s : String)
  | literal (text : String)
  deriving DecidableEq, Repr

/-- Reads a member value: a string literal, or a literal running up to the
next comma or closing brace. -/
def readJSONValue (s : List Char) : Option (JSONField × List Char) :=
  match s with
  | [] => none
  | c :: _ =>
    if c.toNat = 0x22 then (readJSONString s).map fun vr => (.string vr.1, vr.2)
    else
      let tok := s.takeWhile fun c => c ≠ ',' && c.toNat ≠ 0x7D
      if tok = [] then none
      else some (.literal (String.mk tok), s.dropWhile fun c => c ≠ ',' && c.toNat ≠ 0x7D)

/-- Reads one member `key:value`. -/
def readJSONMember (s : List Char) : Option ((String × JSONField) × List Char) :=
  match readJSONString s with
  | none => none
  | some (k, s1) =>
    match expect [':'] s1 with
    | none => none
    | some s2 =>
      match readJSONValue s2 with
      | none => none
      | some (v, s3) => some ((k, v), s3)

/-- Reads the members of an object up to its closing brace, which must end the
input; `fuel` bounds the number of members. -/
def readJSONMembers : Nat → List Char → Option (List (String × JSONField))
  | 0, _ => none
  | fuel + 1, s =>
    match readJSONMember s with
    | none => none
    | some (m, s1) =>
      match s1 with
      | [] => none
      | c :: s2 =>
        if c.toNat = 0x7D then (if s2 = [] then some [m] else none)
        else if c = ',' then (readJSONMembers fuel s2).map fun ms => m :: ms
        else none

/-- Reads the text of a JSON object whose members are strings, numbers or
`null`: the members in order, or `none` when the text is not such an object. -/
def readJSONObject (body : String) : Option (List (String × JSONField)) :=
  match body.data with
  | [] => none
  | c :: s =>
    if c.toNat = 0x7B then
      (if s = [Char.ofNat 0x7D] then some [] else readJSONMembers s.length s)
    else none

/-- Reads `k` cells of a table row, each running up to the next `<`, separated
by `</td><td>` and closed by `</td></tr>`. -/
def readCells : Nat → List Char → Option (List String × List Char)
  | 0, _ => none
  | k + 1, s =>
    let cell := String.mk (s.takeWhile fun c => c ≠ '<')
    let rest := s.dropWhile fun c => c ≠ '<'
    if k = 0 then (expect "</td></tr>".data rest).map fun r => ([cell], r)
    else
      match expect "</td><td>".data rest with
      | none => none
      | some r => (readCells k r).map fun cr => (cell :: cr.1, cr.2)

/-- Reads one row of the result table: the index in its id, then its seven cells. -/
def readTableRow (s : List Char) : Option ((String × List String) × List Char) :=
  (expect "<tr id=\"row_".data s).bind fun s1 =>
    (expect "\"><td>".data (s1.dropWhile fun c => c.toNat ≠ 0x22)).bind fun s2 =>
      (readCells 7 s2).map fun cr =>
        ((String.mk (s1.takeWhile fun c => c.toNat ≠ 0x22), cr.1), cr.2)

/-- Reads rows for as long as the input opens a row; `fuel` bounds their number. -/
def readTableRows : Nat → List Char → Option (List (String × List String) × List Char)
  | 0, s => if (expect "<tr ".data s).isSome then none else some ([], s)
  | fuel + 1, s =>
    if (expect "<tr ".data s).isSome then
      match readTableRow s with
      | none => none
      | some (row, r) => (readTableRows fuel r).map fun rr => (row :: rr.1, rr.2)
    else some ([], s)

/-- Reads the result area: the table head, the rows of the body, the table end.
Each row is given by the index in its id and the texts of its seven cells. -/
def readTable (markup : String) : Option (List (String × List String)) :=
  match expect search_table_head.data markup.data with
  | none => none
  | some s =>
    match readTableRows s.length s with
    | none => none
    | some (rows, r) => if r = "</tbody></table>".data then some rows else none

/-- The index and the seven cell texts the row of record `rec` at index `i` shows. -/
def rowCells (i : Nat) (rec : Recommendation) : String × List String :=
  (toString i,
   [numberText rec.id, rec.name, numberText rec.product_id,
    numberText rec.recommended_product_id, rec.recommendation_type, rec.created_at,
    rec.updated_at])

/-- The rows, as index and cell texts, for the records from index `i` on. -/
def tableCells : Nat → List Recommendation → List (String × List String)
  | _, [] => []
  | i, rec :: rest => rowCells i rec :: tableCells (i + 1) rest

/-- Whether the four text fields of a record are free of `<`. -/
def plainText (rec : Recommendation) : Prop :=
  '<' ∉ rec.name.data ∧ '<' ∉ rec.recommendation_type.data
    ∧ '<' ∉ rec.created_at.data ∧ '<' ∉ rec.updated_at.data

end RestApi

namespace RestApi

/-! ## Auxiliary lemmas: strings and the search query -/

theorem count_intercalate_go (c : Char) (s acc : String) (l : List String) :
    (String.intercalate.go acc s l).data.count c
      = acc.data.count c + l.length * s.data.count c + (l.map fun x => x.data.count c).sum := by
  induction l generalizing acc with
  | nil => simp [String.intercalate.go]
  | cons a as ih =>
    simp only [String.intercalate.go, ih, String.data_append, List.count_append,
      List.length_cons, List.map_cons, List.sum_cons]
    ring

theorem count_intercalate_pairs (l : List (String × String))
    (hk : ∀ kv ∈ l, kv.1.data.count '&' = 0) :
    ("&".intercalate (l.map fun kv => kv.1 ++ "=" ++ kv.2)).data.count '&'
      = (l.length - 1) + (l.map fun kv => kv.2.data.count '&').sum := by
  have hsum : ∀ m : List (String × String), (∀ kv ∈ m, kv.1.data.count '&' = 0) →
      ((m.map fun kv => kv.1 ++ "=" ++ kv.2).map fun x => x.data.count '&').sum
        = (m.map fun kv => kv.2.data.count '&').sum := by
    intro m hm
    induction m with
    | nil => rfl
    | cons a as ih =>
      have ha := hm a (List.mem_cons_self _ _)
      have h1 : "=".data.count '&' = 0 := by decide
      simp only [List.map_cons, List.sum_cons, String.data_append, List.count_append, ha, h1]
      rw [ih (fun kv h => hm kv (List.mem_cons_of_mem _ h))]
      omega
  cases l with
  | nil => rfl
  | cons a as =>
    have ha := hk a (List.mem_cons_self _ _)
    have h1 : "=".data.count '&' = 0 := by decide
    have h2 : "&".data.count '&' = 1 := by decide
    simp only [List.map_cons, String.intercalate, count_intercalate_go, List.length_map,
      List.length_cons, List.sum_cons, String.data_append, List.count_append, ha, h1, h2,
      hsum as (fun kv h => hk kv (List.mem_cons_of_mem _ h))]
    omega

theorem data_intercalate_go (s acc : String) (l : List String) :
    (String.intercalate.go acc s l).data
      = List.intercalate s.data (acc.data :: l.map String.data) := by
  induction l generalizing acc with
  | nil => simp [String.intercalate.go, List.intercalate]
  | cons a as ih =>
    simp only [String.intercalate.go, ih, List.map_cons, List.intercalate,
      List.intersperse_cons₂, String.data_append, List.flatten_cons, List.append_assoc]
    cases as with
    | nil => simp
    | cons b bs => simp

theorem data_intercalate (s : String) (l : List String) :
    (s.intercalate l).data = List.intercalate s.data (l.map String.data) := by
  cases l with
  | nil => rfl
  | cons a as => simp only [String.intercalate, data_intercalate_go, List.map_cons]

theorem activeFilters_key_count (p : Page) :
    ∀ kv ∈ activeFilters p, kv.1.data.count '&' = 0 := by
  intro kv hkv
  have hmem : kv ∈ searchFields p := (List.mem_filter.mp hkv).1
  simp only [searchFields, List.mem_cons, List.mem_singleton] at hmem
  rcases hmem with h | h | h | h | h
  · subst h; exact (by decide : "name".data.count '&' = 0)
  · subst h; exact (by decide : "product_id".data.count '&' = 0)
  · subst h; exact (by decide : "recommended_product_id".data.count '&' = 0)
  · subst h; exact (by decide : "recommendation_type".data.count '&' = 0)
  · exact absurd h (List.not_mem_nil kv)

theorem activeFilters_value_ne (p : Page) : ∀ kv ∈ activeFilters p, kv.2 ≠ "" := by
  intro kv hkv
  simpa using (List.mem_filter.mp hkv).2

theorem search_queryString_eq (p : Page) :
    search_queryString p
      = "&".intercalate ((activeFilters p).map fun kv => kv.1 ++ "=" ++ kv.2) := by
  obtain ⟨i, n, a, b, t, f, r⟩ := p
  simp only [search_queryString, activeFilters, searchFields, truthy]
  have h1 : 0 < "name=".length := by decide
  have h2 : 0 < "product_id=".length := by decide
  have h3 : 0 < "recommended_product_id=".length := by decide
  by_cases hn : n = "" <;> by_cases ha : a = "" <;> by_cases hb : b = "" <;>
    by_cases ht : t = "" <;>
    simp [hn, ha, hb, ht, h1, h2, h3, List.filter, String.intercalate, String.intercalate.go] <;>
    simp [String.ext_iff]

theorem search_queryString_head? (p : Page) :
    (search_queryString p).data.head? ≠ some '&' := by
  obtain ⟨i, n, a, b, t, f, r⟩ := p
  simp only [search_queryString, truthy]
  have h1 : 0 < "name=".length := by decide
  have h2 : 0 < "product_id=".length := by decide
  have h3 : 0 < "recommended_product_id=".length := by decide
  by_cases hn : n = "" <;> by_cases ha : a = "" <;> by_cases hb : b = "" <;>
    by_cases ht : t = "" <;>
    simp [hn, ha, hb, ht, h1, h2, h3]

theorem intercalate_go_getLast? (acc : String) (l : List (String × String))
    (hv : ∀ kv ∈ l, kv.2 ≠ "") :
    (String.intercalate.go acc "&" (l.map fun kv => kv.1 ++ "=" ++ kv.2)).data.getLast?
      = match l.getLast? with
        | none => acc.data.getLast?
        | some kv => kv.2.data.getLast? := by
  induction l generalizing acc with
  | nil => simp [String.intercalate.go]
  | cons a as ih =>
    have ha : a.2.data ≠ [] := fun e => hv a (List.mem_cons_self _ _) (String.ext e)
    simp only [List.map_cons, String.intercalate.go]
    rw [ih _ (fun kv h => hv kv (List.mem_cons_of_mem _ h))]
    cases as with
    | nil =>
      simp only [List.getLast?_nil, List.getLast?_singleton, String.data_append]
      rw [← List.append_assoc, List.getLast?_append_of_ne_nil _ ha]
    | cons b bs =>
      obtain ⟨x, hx⟩ : ∃ x, (b :: bs).getLast? = some x :=
        ⟨_, List.getLast?_eq_getLast _ (List.cons_ne_nil _ _)⟩
      simp only [List.getLast?_cons_cons, hx]

theorem search_queryString_getLast? (p : Page) :
    (search_queryString p).data.getLast?
      = (activeFilters p).getLast?.bind fun kv => kv.2.data.getLast? := by
  rw [search_queryString_eq]
  have hv := activeFilters_value_ne p
  generalize activeFilters p = l at hv
  cases l with
  | nil => rfl
  | cons a as =>
    have ha : a.2.data ≠ [] := fun e => hv a (List.mem_cons_self _ _) (String.ext e)
    simp only [List.map_cons, String.intercalate]
    rw [intercalate_go_getLast? _ as (fun kv h => hv kv (List.mem_cons_of_mem _ h))]
    cases as with
    | nil =>
      simp only [List.getLast?_nil, List.getLast?_singleton, String.data_append,
        Option.some_bind]
      rw [List.getLast?_append_of_ne_nil _ ha]
    | cons b bs =>
      obtain ⟨x, hx⟩ : ∃ x, (b :: bs).getLast? = some x :=
        ⟨_, List.getLast?_eq_getLast _ (List.cons_ne_nil _ _)⟩
      simp only [List.getLast?_cons_cons, hx, Option.some_bind]


/-! ## Auxiliary lemmas: numerals, JSON text and table markup -/

theorem foldl_append_string (l : List String) (acc : String) :
    l.foldl (fun r s => r ++ s) acc = acc ++ String.join l := by
  induction l generalizing acc with
  | nil => simp [String.join]
  | cons a as ih =>
    simp only [List.foldl_cons, String.join]
    rw [ih (acc ++ a), ih ("" ++ a), String.empty_append, String.append_assoc]

theorem join_cons (a : String) (l : List String) :
    String.join (a :: l) = a ++ String.join l := by
  simp only [String.join, List.foldl_cons]
  rw [foldl_append_string, String.empty_append]
  simp [String.join]

theorem data_join (l : List String) :
    (String.join l).data = (l.map String.data).flatten := by
  induction l with
  | nil => rfl
  | cons a as ih => rw [join_cons, String.data_append, ih, List.map_cons, List.flatten_cons]

theorem readJSONChars_plain (c : Char) (tail : List Char) (hq : c.toNat ≠ 0x22)
    (hb : c.toNat ≠ 0x5C) (h32 : ¬ c.toNat < 0x20) :
    readJSONChars (c :: tail) = (readJSONChars tail).map fun sr => (c :: sr.1, sr.2) := by
  rcases tail with _ | ⟨e, _ | ⟨a, _ | ⟨b, _ | ⟨c2, _ | ⟨d, rest2⟩⟩⟩⟩⟩ <;>
    simp [readJSONChars, hq, hb, h32]

theorem readJSONChars_escape (e ch : Char) (tail : List Char) (hu : e ≠ 'u')
    (hch : unescapeJSONChar e = some ch) :
    readJSONChars (Char.ofNat 0x5C :: e :: tail)
      = (readJSONChars tail).map fun sr => (ch :: sr.1, sr.2) := by
  have h1 : (Char.ofNat 0x5C).toNat ≠ 0x22 := by decide
  have h2 : (Char.ofNat 0x5C).toNat = 0x5C := by decide
  rcases tail with _ | ⟨a, _ | ⟨b, _ | ⟨c2, _ | ⟨d, rest2⟩⟩⟩⟩ <;>
    simp [readJSONChars, h1, h2, hu, hch]

theorem readJSONChars_control (k : Nat) (hk : k < 32) (tail : List Char) :
    readJSONChars ((quoteJSONChar (Char.ofNat k)).data ++ tail)
      = (readJSONChars tail).map fun sr => (Char.ofNat k :: sr.1, sr.2) := by
  interval_cases k <;>
    first
      | rfl
      | exact readJSONChars_escape 'b' _ tail (by decide) (by decide)
      | exact readJSONChars_escape 't' _ tail (by decide) (by decide)
      | exact readJSONChars_escape 'n' _ tail (by decide) (by decide)
      | exact readJSONChars_escape 'f' _ tail (by decide) (by decide)
      | exact readJSONChars_escape 'r' _ tail (by decide) (by decide)

theorem readJSONChars_quote (c : Char) (tail : List Char) :
    readJSONChars ((quoteJSONChar c).data ++ tail)
      = (readJSONChars tail).map fun sr => (c :: sr.1, sr.2) := by
  by_cases h32 : c.toNat < 32
  · have h := readJSONChars_control c.toNat h32 tail
    rwa [Char.ofNat_toNat] at h
  · by_cases hq : c.toNat = 0x22
    · have hc : c = Char.ofNat 0x22 := by rw [← hq, Char.ofNat_toNat]
      subst hc
      exact readJSONChars_escape (Char.ofNat 0x22) _ tail (by decide) (by decide)
    · by_cases hb : c.toNat = 0x5C
      · have hc : c = Char.ofNat 0x5C := by rw [← hb, Char.ofNat_toNat]
        subst hc
        exact readJSONChars_escape (Char.ofNat 0x5C) _ tail (by decide) (by decide)
      · have e : quoteJSONChar c = String.singleton c := by
          unfold quoteJSONChar
          have h8 : c.toNat ≠ 0x08 := by omega
          have h9 : c.toNat ≠ 0x09 := by omega
          have hA : c.toNat ≠ 0x0A := by omega
          have hC : c.toNat ≠ 0x0C := by omega
          have hD : c.toNat ≠ 0x0D := by omega
          simp only [h8, h9, hA, hC, hD, hq, hb, h32, if_false]
        rw [e]
        exact readJSONChars_plain c tail hq hb h32

theorem readJSONChars_quoted (cs tail : List Char) :
    readJSONChars ((cs.map fun c => (quoteJSONChar c).data).flatten
        ++ Char.ofNat 0x22 :: tail) = some (cs, tail) := by
  induction cs with
  | nil =>
    have h : (Char.ofNat 0x22).toNat = 0x22 := by decide
    rcases tail with _ | ⟨e, _ | ⟨a, _ | ⟨b, _ | ⟨c2, _ | ⟨d, rest2⟩⟩⟩⟩⟩ <;>
      simp [readJSONChars, h]
  | cons c cs ih =>
    rw [List.map_cons, List.flatten_cons, List.append_assoc, readJSONChars_quote, ih]
    rfl

theorem readJSONString_quote (s : String) (tail : List Char) :
    readJSONString ((quoteJSONString s).data ++ tail) = some (s, tail) := by
  have h : (Char.ofNat 0x22).toNat = 0x22 := by decide
  unfold quoteJSONString
  simp only [String.data_append, data_join, List.map_map, List.append_assoc]
  show readJSONString (Char.ofNat 0x22 :: (_ ++ (Char.ofNat 0x22 :: tail))) = _
  simp only [readJSONString, h, if_true]
  have := readJSONChars_quoted s.data tail
  simp only [Function.comp_def] at *
  rw [this]
  rfl

theorem char_le_iff (a b : Char) : a ≤ b ↔ a.toNat ≤ b.toNat := by
  rfl

theorem isRadixDigit_ten (c : Char) : isRadixDigit 10 c = c.isDigit := by
  have h0 : ('0' : Char).toNat = 48 := by decide
  have h9 : ('9' : Char).toNat = 57 := by decide
  have ha : ('a' : Char).toNat = 97 := by decide
  have hz : ('z' : Char).toNat = 122 := by decide
  have hA : ('A' : Char).toNat = 65 := by decide
  have hZ : ('Z' : Char).toNat = 90 := by decide
  have hd : c.isDigit = (decide (48 ≤ c.toNat) && decide (c.toNat ≤ 57)) := by
    rfl
  rw [hd]
  unfold isRadixDigit digitValue
  simp only [char_le_iff, h0, h9, ha, hz, hA, hZ]
  by_cases h1 : 48 ≤ c.toNat ∧ c.toNat ≤ 57
  · simp only [h1, and_self, if_true, decide_True, Bool.and_self]
    simp; omega
  · simp only [h1, if_false]
    have : (decide (48 ≤ c.toNat) && decide (c.toNat ≤ 57)) = false := by
      simpa using fun h => by omega
    rw [this]
    split_ifs with h2 h3 <;> simp <;> omega

theorem isDigit_not_space (c : Char) (h : c.isDigit = true) :
    isStrWhiteSpaceChar c = false ∧ c ≠ '+' ∧ c ≠ '-' := by
  have hd : c.isDigit = (decide (48 ≤ c.toNat) && decide (c.toNat ≤ 57)) := by
    rfl
  rw [hd] at h
  simp only [Bool.and_eq_true, decide_eq_true_eq] at h
  refine ⟨?_, ?_, ?_⟩
  · simp only [isStrWhiteSpaceChar, List.mem_cons, List.mem_singleton, decide_eq_false_iff_not]
    simp only [List.not_mem_nil, or_false]
    omega
  · rintro rfl; revert h; decide
  · rintro rfl; revert h; decide

theorem digitValue_digitChar (k : Nat) (hk : k < 10) :
    digitValue (Nat.digitChar k) = some k ∧ (Nat.digitChar k).isDigit = true := by
  interval_cases k <;> decide

theorem digitsValue_append (R : Nat) (l : List Char) (c : Char) :
    digitsValue R (l ++ [c]) = digitsValue R l * R + (digitValue c).getD 0 := by
  simp [digitsValue, List.foldl_append]

theorem toDigitsCore_spec (fuel : Nat) :
    ∀ (n : Nat) (ds : List Char), n < fuel →
      ∃ l, Nat.toDigitsCore 10 fuel n ds = l ++ ds ∧ l ≠ []
        ∧ (∀ c ∈ l, c.isDigit = true) ∧ digitsValue 10 l = n := by
  induction fuel with
  | zero => intro n ds h; omega
  | succ fuel ih =>
    intro n ds hn
    have hd := digitValue_digitChar (n % 10) (Nat.mod_lt _ (by decide))
    simp only [Nat.toDigitsCore]
    by_cases h0 : n / 10 = 0
    · refine ⟨[Nat.digitChar (n % 10)], by simp [h0], by simp, ?_, ?_⟩
      · intro c hc
        simp only [List.mem_singleton] at hc
        subst hc
        exact hd.2
      · simp only [digitsValue, List.foldl_cons, List.foldl_nil, hd.1, Option.getD_some]
        omega
    · obtain ⟨l, hl, _, hdig, hval⟩ :=
        ih (n / 10) (Nat.digitChar (n % 10) :: ds) (by omega)
      refine ⟨l ++ [Nat.digitChar (n % 10)], by simp [h0, hl], by simp, ?_, ?_⟩
      · intro c hc
        rcases List.mem_append.mp hc with h | h
        · exact hdig c h
        · simp only [List.mem_singleton] at h
          subst h
          exact hd.2
      · rw [digitsValue_append, hval, hd.1, Option.getD_some]
        omega

theorem natRepr_spec (n : Nat) :
    (toString n).data ≠ [] ∧ (∀ c ∈ (toString n).data, c.isDigit = true)
      ∧ digitsValue 10 (toString n).data = n := by
  obtain ⟨l, hl, hne, hdig, hval⟩ := toDigitsCore_spec (n + 1) n [] (Nat.lt_succ_self n)
  have hdata : (toString n).data = l := by
    show (Nat.repr n).data = l
    simp only [Nat.repr, Nat.toDigits, hl, List.append_nil, List.asString]
  rw [hdata]
  exact ⟨hne, hdig, hval⟩

theorem hasHexPrefix_digits (l : List Char) (h : ∀ c ∈ l, c.isDigit = true) :
    hasHexPrefix l = false := by
  unfold hasHexPrefix
  split
  · exact absurd (h 'x' (by simp)) (by decide)
  · exact absurd (h 'X' (by simp)) (by decide)
  · rfl


theorem isNumberChar_of_isDigit (c : Char) (h : c.isDigit = true) : isNumberChar c = true := by
  simp [isNumberChar, h]

theorem natRepr_numberChars (m : Nat) : ∀ c ∈ (Nat.repr m).data, isNumberChar c = true :=
  fun c hc => isNumberChar_of_isDigit c ((natRepr_spec m).2.1 c hc)

theorem natRepr_ne_nil (m : Nat) : (Nat.repr m).data ≠ [] := (natRepr_spec m).1

theorem positiveNumberText_chars (v : Nat) :
    (positiveNumberText v).data ≠ []
      ∧ ∀ c ∈ (positiveNumberText v).data, isNumberChar c = true := by
  have hlit : ∀ c ∈ ['.', 'e', '+', '0'], isNumberChar c = true := by decide
  unfold positiveNumberText
  split_ifs with h53
  · exact ⟨natRepr_ne_nil v, natRepr_numberChars v⟩
  · split
    · exact ⟨natRepr_ne_nil v, natRepr_numberChars v⟩
    · rename_i k s n _
      have hs := natRepr_numberChars s
      have hne := natRepr_ne_nil s
      simp only []
      split_ifs with h21 hk
      · refine ⟨by simp [hne], ?_⟩
        intro c hc
        rcases List.mem_append.mp hc with h | h
        · exact hs c h
        · rw [List.eq_of_mem_replicate h]; decide
      · refine ⟨by simp [hne], ?_⟩
        intro c hc
        simp only [String.data_append, List.mem_append] at hc
        rcases hc with (h | h) | h
        · exact hs c h
        · exact hlit c (by revert h; simp only [List.mem_cons]; tauto)
        · exact natRepr_numberChars _ c h
      · constructor
        · obtain ⟨d, ds, hd⟩ := List.exists_cons_of_ne_nil hne
          simp [hd]
        · intro c hc
          simp only [String.data_append, List.mem_append] at hc
          rcases hc with (((h | h) | h) | h) | h
          · exact hs c (List.mem_of_mem_take h)
          · exact hlit c (by revert h; simp only [List.mem_cons]; tauto)
          · exact hs c (List.mem_of_mem_drop h)
          · exact hlit c (by revert h; simp only [List.mem_cons]; tauto)
          · exact natRepr_numberChars _ c h

theorem numberToString_chars (x : JSNumber) :
    (numberToString x).data ≠ [] ∧ ∀ c ∈ (numberToString x).data, isNumberChar c = true := by
  cases x with
  | nan => exact ⟨by decide, by decide⟩
  | infinity neg => cases neg <;> exact ⟨by decide, by decide⟩
  | fin v =>
    obtain ⟨hne, hch⟩ := positiveNumberText_chars v.natAbs
    simp only [numberToString]
    split_ifs
    · refine ⟨by simp, ?_⟩
      intro c hc
      simp only [String.data_append, List.mem_append] at hc
      rcases hc with h | h
      · have : c = '-' := by simpa using h
        subst this; decide
      · exact hch c h
    · exact ⟨hne, hch⟩

theorem expect_append (lit tail : List Char) : expect lit (lit ++ tail) = some tail := by
  induction lit with
  | nil => cases tail <;> rfl
  | cons c cs ih => simp [expect, ih]

theorem quoteJSONString_head (s : String) (tail : List Char) :
    ∃ r, (quoteJSONString s).data ++ tail = Char.ofNat 0x22 :: r := by
  unfold quoteJSONString
  exact ⟨_, by simp only [String.data_append, List.append_assoc]; rfl⟩

theorem readJSONValue_string (s : String) (tail : List Char) :
    readJSONValue ((quoteJSONString s).data ++ tail) = some (.string s, tail) := by
  obtain ⟨r, hr⟩ := quoteJSONString_head s tail
  have h := readJSONString_quote s tail
  have hq : (Char.ofNat 0x22).toNat = 0x22 := by decide
  rw [hr] at h ⊢
  simp only [readJSONValue, hq, if_true, h, Option.map_some']

/-- A character of a number's text is no comma, closing brace, quotation mark
or `<`. -/
theorem isNumberChar_literal (c : Char) (h : isNumberChar c = true) :
    c ≠ ',' ∧ c.toNat ≠ 0x7D ∧ c.toNat ≠ 0x22 ∧ c ≠ '<' := by
  have hd : c.isDigit = (decide (48 ≤ c.toNat) && decide (c.toNat ≤ 57)) := by
    rfl
  simp only [isNumberChar, hd, Bool.or_eq_true, Bool.and_eq_true, decide_eq_true_eq] at h
  rcases h with h | h
  · refine ⟨?_, by omega, by omega, ?_⟩
    · rintro rfl; revert h; decide
    · rintro rfl; revert h; decide
  · simp only [List.mem_cons, List.mem_singleton, List.not_mem_nil, or_false] at h
    rcases h with h | h | h | h | h | h | h | h | h | h | h | h <;> subst h <;> decide

theorem readJSONValue_literal (tok tail : List Char) (t : Char) (hne : tok ≠ [])
    (htok : ∀ c ∈ tok, c ≠ ',' ∧ c.toNat ≠ 0x7D ∧ c.toNat ≠ 0x22)
    (ht : t = ',' ∨ t.toNat = 0x7D) :
    readJSONValue (tok ++ t :: tail) = some (.literal (String.mk tok), t :: tail) := by
  have hp : ∀ c ∈ tok, (fun c : Char => c ≠ ',' && c.toNat ≠ 0x7D) c = true := by
    intro c hc
    have := htok c hc
    simp [this.1, this.2.1]
  have hn : (fun c : Char => c ≠ ',' && c.toNat ≠ 0x7D) t = false := by
    rcases ht with h | h <;> simp [h]
  have htake : (tok ++ t :: tail).takeWhile (fun c : Char => c ≠ ',' && c.toNat ≠ 0x7D)
      = tok := by
    rw [List.takeWhile_append_of_pos hp, List.takeWhile_cons]
    simp only at hn
    rw [if_neg (by rw [hn]; exact Bool.false_ne_true), List.append_nil]
  have hdrop : (tok ++ t :: tail).dropWhile (fun c : Char => c ≠ ',' && c.toNat ≠ 0x7D)
      = t :: tail := by
    rw [List.dropWhile_append_of_pos hp, List.dropWhile_cons]
    simp only at hn
    rw [if_neg (by rw [hn]; exact Bool.false_ne_true)]
  obtain ⟨d, ds, hd⟩ := List.exists_cons_of_ne_nil hne
  have hdq : d.toNat ≠ 0x22 := (htok d (by rw [hd]; exact List.mem_cons_self _ _)).2.2
  have hshape : tok ++ t :: tail = d :: (ds ++ t :: tail) := by rw [hd]; rfl
  unfold readJSONValue
  rw [hshape]
  simp only [hdq, if_false]
  rw [← hshape, htake, hdrop]
  simp only [hne, if_false]

theorem serializeJSONValue_num (x : JSNumber) :
    (serializeJSONValue (.num x)).data ≠ []
      ∧ ∀ c ∈ (serializeJSONValue (.num x)).data,
          c ≠ ',' ∧ c.toNat ≠ 0x7D ∧ c.toNat ≠ 0x22 := by
  cases x with
  | nan => exact ⟨by decide, by decide⟩
  | infinity neg => cases neg <;> exact ⟨by decide, by decide⟩
  | fin v =>
    obtain ⟨hne, hch⟩ := numberToString_chars (.fin v)
    refine ⟨hne, fun c hc => ?_⟩
    have := isNumberChar_literal c (hch c hc)
    exact ⟨this.1, this.2.1, this.2.2.1⟩

theorem readJSONValue_num (x : JSNumber) (t : Char) (tail : List Char)
    (ht : t = ',' ∨ t.toNat = 0x7D) :
    readJSONValue ((serializeJSONValue (.num x)).data ++ t :: tail)
      = some (.literal (serializeJSONValue (.num x)), t :: tail) := by
  obtain ⟨hne, hch⟩ := serializeJSONValue_num x
  exact readJSONValue_literal _ tail t hne hch ht

theorem readJSONMember_of_value (k : String) (vtext tail : List Char) (v : JSONField)
    (hv : readJSONValue (vtext ++ tail) = some (v, tail)) :
    readJSONMember ((quoteJSONString k).data ++ (':' :: (vtext ++ tail)))
      = some ((k, v), tail) := by
  unfold readJSONMember
  rw [readJSONString_quote]
  simp only
  rw [show (':' :: (vtext ++ tail)) = [':'] ++ (vtext ++ tail) from rfl, expect_append]
  simp only
  rw [hv]

theorem readJSONMembers_comma (fuel : Nat) (M rest : List Char)
    (m : String × JSONField)
    (hm : readJSONMember (M ++ (',' :: rest)) = some (m, ',' :: rest)) :
    readJSONMembers (fuel + 1) (M ++ (',' :: rest))
      = (readJSONMembers fuel rest).map fun ms => m :: ms := by
  have hc : (',' : Char).toNat ≠ 0x7D := by decide
  simp only [readJSONMembers, hm, hc, if_false, if_true]

theorem readJSONMembers_end (fuel : Nat) (M : List Char) (m : String × JSONField)
    (hm : readJSONMember (M ++ [Char.ofNat 0x7D]) = some (m, [Char.ofNat 0x7D])) :
    readJSONMembers (fuel + 1) (M ++ [Char.ofNat 0x7D]) = some [m] := by
  have hc : (Char.ofNat 0x7D).toNat = 0x7D := by decide
  simp only [readJSONMembers, hm, hc, if_true]

theorem readJSONMember_string (k s : String) (tail : List Char) :
    readJSONMember ((quoteJSONString k).data ++ (':' :: ((quoteJSONString s).data ++ tail)))
      = some ((k, .string s), tail) :=
  readJSONMember_of_value k _ tail _ (readJSONValue_string s tail)

theorem readJSONMember_num (k : String) (x : JSNumber) (t : Char) (tail : List Char)
    (ht : t = ',' ∨ t.toNat = 0x7D) :
    readJSONMember ((quoteJSONString k).data
        ++ (':' :: ((serializeJSONValue (.num x)).data ++ t :: tail)))
      = some ((k, .literal (serializeJSONValue (.num x))), t :: tail) :=
  readJSONMember_of_value k _ (t :: tail) _ (readJSONValue_num x t tail ht)

theorem readJSONMembers_four (fuel : Nat) (M1 M2 M3 M4 : List Char)
    (m1 m2 m3 m4 : String × JSONField)
    (h1 : ∀ tail, readJSONMember (M1 ++ (',' :: tail)) = some (m1, ',' :: tail))
    (h2 : ∀ tail, readJSONMember (M2 ++ (',' :: tail)) = some (m2, ',' :: tail))
    (h3 : ∀ tail, readJSONMember (M3 ++ (',' :: tail)) = some (m3, ',' :: tail))
    (h4 : readJSONMember (M4 ++ [Char.ofNat 0x7D]) = some (m4, [Char.ofNat 0x7D])) :
    readJSONMembers (fuel + 1 + 1 + 1 + 1)
        (M1 ++ (',' :: (M2 ++ (',' :: (M3 ++ (',' :: (M4 ++ [Char.ofNat 0x7D])))))))
      = some [m1, m2, m3, m4] := by
  rw [readJSONMembers_comma _ _ _ _ (h1 _), readJSONMembers_comma _ _ _ _ (h2 _),
    readJSONMembers_comma _ _ _ _ (h3 _), readJSONMembers_end _ _ _ h4]
  rfl

theorem stringify_payload_shape (n t : String) (a b : JSNumber) :
    ∃ M1 M2 M3 M4 : List Char,
      (JSON.stringify [("name", .str n), ("product_id", .num a),
          ("recommended_product_id", .num b), ("recommendation_type", .str t)]).data
        = Char.ofNat 0x7B ::
            (M1 ++ (',' :: (M2 ++ (',' :: (M3 ++ (',' :: (M4 ++ [Char.ofNat 0x7D])))))))
      ∧ (∀ tail, readJSONMember (M1 ++ (',' :: tail))
            = some (("name", .string n), ',' :: tail))
      ∧ (∀ tail, readJSONMember (M2 ++ (',' :: tail))
            = some (("product_id", .literal (serializeJSONValue (.num a))), ',' :: tail))
      ∧ (∀ tail, readJSONMember (M3 ++ (',' :: tail))
            = some (("recommended_product_id", .literal (serializeJSONValue (.num b))),
                ',' :: tail))
      ∧ readJSONMember (M4 ++ [Char.ofNat 0x7D])
            = some (("recommendation_type", .string t), [Char.ofNat 0x7D]) := by
  have h1 : ("\x7b" : String).data = [Char.ofNat 0x7B] := by decide
  have h2 : ("\x7d" : String).data = [Char.ofNat 0x7D] := by decide
  have h3 : (":" : String).data = [':'] := by decide
  have h4 : ("," : String).data = [','] := by decide
  refine ⟨(quoteJSONString "name").data ++ (':' :: (quoteJSONString n).data),
    (quoteJSONString "product_id").data ++ (':' :: (serializeJSONValue (.num a)).data),
    (quoteJSONString "recommended_product_id").data
      ++ (':' :: (serializeJSONValue (.num b)).data),
    (quoteJSONString "recommendation_type").data ++ (':' :: (quoteJSONString t).data),
    ?_, ?_, ?_, ?_, ?_⟩
  · simp only [JSON.stringify, List.map_cons, List.map_nil, String.intercalate,
      String.intercalate.go, String.data_append, h1, h2, h3, h4, serializeJSONValue,
      List.append_assoc, List.singleton_append, List.cons_append, List.nil_append]
  · intro tail
    have := readJSONMember_string "name" n (',' :: tail)
    simpa only [List.append_assoc, List.cons_append] using this
  · intro tail
    have := readJSONMember_num "product_id" a ',' tail (Or.inl rfl)
    simpa only [List.append_assoc, List.cons_append] using this
  · intro tail
    have := readJSONMember_num "recommended_product_id" b ',' tail (Or.inl rfl)
    simpa only [List.append_assoc, List.cons_append] using this
  · have := readJSONMember_string "recommendation_type" t [Char.ofNat 0x7D]
    simpa only [List.append_assoc, List.cons_append] using this

theorem readJSONObject_payload (n t : String) (a b : JSNumber) :
    readJSONObject (JSON.stringify [("name", .str n), ("product_id", .num a),
        ("recommended_product_id", .num b), ("recommendation_type", .str t)])
      = some [("name", .string n), ("product_id", .literal (serializeJSONValue (.num a))),
          ("recommended_product_id", .literal (serializeJSONValue (.num b))),
          ("recommendation_type", .string t)] := by
  obtain ⟨M1, M2, M3, M4, hdata, e1, e2, e3, e4⟩ := stringify_payload_shape n t a b
  have hb : (Char.ofNat 0x7B).toNat = 0x7B := by decide
  unfold readJSONObject
  rw [hdata]
  simp only [hb, if_true]
  generalize hS : M1 ++ (',' :: (M2 ++ (',' :: (M3 ++ (',' :: (M4 ++ [Char.ofNat 0x7D]))))))
    = S
  have hlen : 4 ≤ S.length := by
    rw [← hS]
    simp only [List.length_append, List.length_cons, List.length_nil]
    omega
  have hne : S ≠ [Char.ofNat 0x7D] := by
    intro h
    rw [h] at hlen
    simp at hlen
  rw [if_neg hne]
  obtain ⟨f, hf⟩ : ∃ f, S.length = f + 1 + 1 + 1 + 1 :=
    ⟨S.length - 4, by omega⟩
  rw [hf, ← hS]
  exact readJSONMembers_four f M1 M2 M3 M4 _ _ _ _ e1 e2 e3 e4


theorem takeWhile_until (f : Char → Bool) (cell rest : List Char) (x : Char)
    (hcell : ∀ c ∈ cell, f c = true) (hx : f x = false) :
    (cell ++ x :: rest).takeWhile f = cell ∧ (cell ++ x :: rest).dropWhile f = x :: rest := by
  constructor
  · rw [List.takeWhile_append_of_pos hcell, List.takeWhile_cons]
    rw [if_neg (by rw [hx]; exact Bool.false_ne_true), List.append_nil]
  · rw [List.dropWhile_append_of_pos hcell, List.dropWhile_cons]
    rw [if_neg (by rw [hx]; exact Bool.false_ne_true)]

theorem cell_until (cell rest : List Char) (h : '<' ∉ cell) :
    (cell ++ '<' :: rest).takeWhile (fun c => c ≠ '<') = cell
      ∧ (cell ++ '<' :: rest).dropWhile (fun c => c ≠ '<') = '<' :: rest :=
  takeWhile_until _ cell rest '<'
    (fun c hc => by
      have : c ≠ '<' := fun e => h (e ▸ hc)
      simp [this])
    (by simp)

theorem readCells_step (k : Nat) (cell tail : List Char) (h : '<' ∉ cell) :
    readCells (k + 1 + 1) (cell ++ ("</td><td>".data ++ tail))
      = (readCells (k + 1) tail).map fun cr => (String.mk cell :: cr.1, cr.2) := by
  have hshape : "</td><td>".data ++ tail = '<' :: ("/td><td>".data ++ tail) := rfl
  have hc := cell_until cell ("/td><td>".data ++ tail) h
  rw [← hshape] at hc
  have hk : k + 1 ≠ 0 := Nat.succ_ne_zero k
  simp only [readCells, hc.1, hc.2, hk, if_false, expect_append]

theorem readCells_last (cell tail : List Char) (h : '<' ∉ cell) :
    readCells 1 (cell ++ ("</td></tr>".data ++ tail)) = some ([String.mk cell], tail) := by
  have hshape : "</td></tr>".data ++ tail = '<' :: ("/td></tr>".data ++ tail) := rfl
  have hc := cell_until cell ("/td></tr>".data ++ tail) h
  rw [← hshape] at hc
  simp only [readCells, hc.1, hc.2, if_true, expect_append, Option.map_some']

theorem readCells_seven (c1 c2 c3 c4 c5 c6 c7 tail : List Char)
    (h1 : '<' ∉ c1) (h2 : '<' ∉ c2) (h3 : '<' ∉ c3) (h4 : '<' ∉ c4) (h5 : '<' ∉ c5)
    (h6 : '<' ∉ c6) (h7 : '<' ∉ c7) :
    readCells 7
        (c1 ++ ("</td><td>".data ++ (c2 ++ ("</td><td>".data ++ (c3 ++ ("</td><td>".data
          ++ (c4 ++ ("</td><td>".data ++ (c5 ++ ("</td><td>".data ++ (c6
          ++ ("</td><td>".data ++ (c7 ++ ("</td></tr>".data ++ tail))))))))))))))
      = some ([String.mk c1, String.mk c2, String.mk c3, String.mk c4, String.mk c5,
          String.mk c6, String.mk c7], tail) := by
  rw [readCells_step 5 c1 _ h1, readCells_step 4 c2 _ h2, readCells_step 3 c3 _ h3,
    readCells_step 2 c4 _ h4, readCells_step 1 c5 _ h5, readCells_step 0 c6 _ h6,
    readCells_last c7 _ h7]
  rfl

theorem numberText_no_lt (z : Int) : '<' ∉ (numberText z).data := by
  intro h
  exact (isNumberChar_literal _ ((numberToString_chars (toNumber z)).2 _ h)).2.2.2 rfl

theorem search_table_row_data (i : Nat) (r : Recommendation) (tail : List Char) :
    (search_table_row i r).data ++ tail
      = "<tr id=\"row_".data ++ ((toString i).data ++ ("\"><td>".data
          ++ ((numberText r.id).data ++ ("</td><td>".data ++ (r.name.data
          ++ ("</td><td>".data ++ ((numberText r.product_id).data ++ ("</td><td>".data
          ++ ((numberText r.recommended_product_id).data ++ ("</td><td>".data
          ++ (r.recommendation_type.data ++ ("</td><td>".data ++ (r.created_at.data
          ++ ("</td><td>".data ++ (r.updated_at.data
          ++ ("</td></tr>".data ++ tail)))))))))))))))) := by
  simp only [search_table_row, String.data_append, List.append_assoc]

theorem readTableRow_row (i : Nat) (r : Recommendation) (tail : List Char)
    (hr : plainText r) :
    readTableRow ((search_table_row i r).data ++ tail) = some (rowCells i r, tail) := by
  obtain ⟨hn, ht, hc, hu⟩ := hr
  have hidx : ∀ c ∈ (toString i).data, (fun c : Char => decide (c.toNat ≠ 0x22)) c = true := by
    intro c hc
    have := (isNumberChar_literal c (natRepr_numberChars i c hc)).2.2.1
    simp [this]
  have hq : (fun c : Char => decide (c.toNat ≠ 0x22)) (Char.ofNat 0x22) = false := by decide
  have hshape : ∀ X : List Char, "\"><td>".data ++ X = Char.ofNat 0x22 :: ("><td>".data ++ X) :=
    fun _ => rfl
  rw [search_table_row_data]
  unfold readTableRow
  rw [expect_append, Option.some_bind, hshape,
    (takeWhile_until _ (toString i).data _ (Char.ofNat 0x22) hidx hq).1,
    (takeWhile_until _ (toString i).data _ (Char.ofNat 0x22) hidx hq).2, ← hshape,
    expect_append, Option.some_bind,
    readCells_seven _ _ _ _ _ _ _ tail (numberText_no_lt _) hn (numberText_no_lt _)
      (numberText_no_lt _) ht hc hu]
  rfl

theorem row_opens (i : Nat) (r : Recommendation) (tail : List Char) :
    (expect "<tr ".data ((search_table_row i r).data ++ tail)).isSome = true := by
  have hshape : ∀ X : List Char,
      "<tr id=\"row_".data ++ X = "<tr ".data ++ ("id=\"row_".data ++ X) := fun _ => rfl
  rw [search_table_row_data, hshape, expect_append]
  rfl

theorem row_length (i : Nat) (r : Recommendation) :
    1 ≤ (search_table_row i r).data.length := by
  have h := congrArg List.length (search_table_row_data i r [])
  rw [List.append_nil, List.length_append] at h
  have : ("<tr id=\"row_".data).length = 12 := by decide
  omega

theorem join_rows_length (res : List Recommendation) (i : Nat) :
    res.length ≤ (String.join (tableRows i res)).data.length := by
  induction res generalizing i with
  | nil => simp
  | cons r rs ih =>
    rw [tableRows, join_cons, String.data_append, List.length_append, List.length_cons]
    have := row_length i r
    have := ih (i + 1)
    omega

theorem readTableRows_rows (res : List Recommendation) (fuel i : Nat) (tail : List Char)
    (hfuel : res.length ≤ fuel) (hres : ∀ r ∈ res, plainText r)
    (htail : (expect "<tr ".data tail).isSome = false) :
    readTableRows fuel ((String.join (tableRows i res)).data ++ tail)
      = some (tableCells i res, tail) := by
  induction res generalizing fuel i with
  | nil =>
    have e : (String.join (tableRows i [])).data ++ tail = tail := rfl
    rw [e]
    cases fuel <;> simp only [readTableRows, htail, Bool.false_eq_true, if_false, tableCells]
  | cons r rs ih =>
    obtain ⟨f, rfl⟩ : ∃ f, fuel = f + 1 := ⟨fuel - 1, by simp at hfuel; omega⟩
    have hf : rs.length ≤ f := by simpa using hfuel
    rw [tableRows, join_cons, String.data_append, List.append_assoc]
    simp only [readTableRows,
      readTableRow_row i r _ (hres r (List.mem_cons_self _ _)),
      ih f (i + 1) hf (fun x hx => hres x (List.mem_cons_of_mem _ hx)), Option.map_some',
      tableCells]
    exact if_pos (row_opens i r _)

theorem readTable_rows (res : List Recommendation) (hres : ∀ r ∈ res, plainText r) :
    readTable (search_table_head ++ String.join (tableRows 0 res) ++ "</tbody></table>")
      = some (tableCells 0 res) := by
  have htail : (expect "<tr ".data "</tbody></table>".data).isSome = false := by decide
  have hlen := join_rows_length res 0
  unfold readTable
  rw [String.data_append, String.data_append, List.append_assoc, expect_append]
  simp only
  rw [readTableRows_rows res _ 0 _ (by rw [List.length_append]; omega) hres htail]
  simp only [if_true]


/-! ## Auxiliary lemmas: the search loop -/

theorem search_loop_table (res : List Recommendation) (i : Nat) (table : String)
    (firstRec : Option Recommendation) :
    (search_loop res i table firstRec).1 = table ++ String.join (tableRows i res) := by
  induction res generalizing i table firstRec with
  | nil => simp [search_loop, tableRows, String.join]
  | cons r rs ih =>
    simp only [search_loop, tableRows]
    rw [ih, join_cons, String.append_assoc]

theorem search_loop_firstRec_succ (res : List Recommendation) (i : Nat) (table : String)
    (firstRec : Option Recommendation) :
    (search_loop res (i + 1) table firstRec).2 = firstRec := by
  induction res generalizing i table with
  | nil => simp [search_loop]
  | cons r rs ih =>
    have hi : (i + 1 == 0) = false := by simp
    simp only [search_loop, hi]
    exact ih (i + 1) _

theorem search_loop_firstRec_zero (res : List Recommendation) (table : String) :
    (search_loop res 0 table none).2 = res.head? := by
  cases res with
  | nil => simp [search_loop]
  | cons r rs =>
    simp only [search_loop]
    rw [search_loop_firstRec_succ]
    simp

theorem tableRows_length (res : List Recommendation) (i : Nat) :
    (tableRows i res).length = res.length := by
  induction res generalizing i with
  | nil => rfl
  | cons r rs ih => simp [tableRows, ih]

theorem tableRows_getElem? (res : List Recommendation) (i k : Nat) :
    (tableRows i res)[k]? = res[k]?.map (search_table_row (i + k)) := by
  induction res generalizing i k with
  | nil => simp [tableRows]
  | cons r rs ih =>
    cases k with
    | zero => simp only [tableRows, List.getElem?_cons_zero, Option.map_some', Nat.add_zero]
    | succ k =>
      simp only [tableRows, List.getElem?_cons_succ]
      rw [ih, show i + 1 + k = i + (k + 1) by omega]

theorem search_ajax_done_eq (res : List Recommendation) (p : Page) :
    search_ajax_done res p
      = flash_message (some "Success")
          (match res.head? with
           | some rec =>
             update_form_data rec
               { p with
                 search_results :=
                   search_table_head ++ String.join (tableRows 0 res) ++ "</tbody></table>" }
           | none =>
             { p with
               search_results :=
                 search_table_head ++ String.join (tableRows 0 res) ++ "</tbody></table>" }) := by
  simp only [search_ajax_done, search_loop_table, search_loop_firstRec_zero,
    String.empty_append]


theorem tableCells_length (res : List Recommendation) (i : Nat) :
    (tableCells i res).length = res.length := by
  induction res generalizing i with
  | nil => rfl
  | cons r rs ih => simp [tableCells, ih]

theorem tableCells_getElem? (res : List Recommendation) (i k : Nat) :
    (tableCells i res)[k]? = res[k]?.map (rowCells (i + k)) := by
  induction res generalizing i k with
  | nil => simp [tableCells]
  | cons r rs ih =>
    cases k with
    | zero => simp only [tableCells, List.getElem?_cons_zero, Option.map_some', Nat.add_zero]
    | succ k =>
      simp only [tableCells, List.getElem?_cons_succ]
      rw [ih, show i + 1 + k = i + (k + 1) by omega]

/-! ## Auxiliary lemmas: `parseInt` and exact numbers -/

theorem isRadixDigit_sixteen (c : Char) : isRadixDigit 16 c = isHexDigitChar c := by
  have h0 : ('0' : Char).toNat = 48 := by decide
  have h9 : ('9' : Char).toNat = 57 := by decide
  have ha : ('a' : Char).toNat = 97 := by decide
  have hz : ('z' : Char).toNat = 122 := by decide
  have hf : ('f' : Char).toNat = 102 := by decide
  have hA : ('A' : Char).toNat = 65 := by decide
  have hZ : ('Z' : Char).toNat = 90 := by decide
  have hF : ('F' : Char).toNat = 70 := by decide
  have hd : c.isDigit = (decide (48 ≤ c.toNat) && decide (c.toNat ≤ 57)) := by
    rfl
  unfold isHexDigitChar isRadixDigit digitValue
  rw [hd]
  simp only [char_le_iff, h0, h9, ha, hz, hf, hA, hZ, hF]
  by_cases h1 : 48 ≤ c.toNat ∧ c.toNat ≤ 57
  · simp only [h1, and_self, if_true, decide_True, Bool.and_self, Bool.true_or]
    simp; omega
  · simp only [h1, if_false]
    have e1 : (decide (48 ≤ c.toNat) && decide (c.toNat ≤ 57)) = false := by
      simpa using fun h => by omega
    rw [e1]
    split_ifs with h2 h3
    · rw [Bool.false_or, Bool.eq_iff_iff]
      simp only [Bool.or_eq_true, Bool.and_eq_true, decide_eq_true_eq]
      constructor
      · intro h; left; omega
      · intro h; omega
    · rw [Bool.false_or, Bool.eq_iff_iff]
      simp only [Bool.or_eq_true, Bool.and_eq_true, decide_eq_true_eq]
      constructor
      · intro h; right; omega
      · intro h; omega
    · rw [Bool.false_or, Bool.eq_iff_iff]
      simp only [Bool.or_eq_true, Bool.and_eq_true, decide_eq_true_eq, Bool.false_eq_true,
        false_iff]
      omega

theorem toNumber_exact (z : Int) (hz : z.natAbs ≤ 2 ^ 53) : toNumber z = .fin z := by
  unfold toNumber roundToDouble
  simp only [hz, if_true]
  congr 1
  split_ifs with h <;> omega

theorem positiveNumberText_exact (v : Nat) (hv : v ≤ 2 ^ 53) :
    positiveNumberText v = Nat.repr v := by
  unfold positiveNumberText
  simp only [hv, if_true]

theorem numberText_exact (z : Int) (hz : z.natAbs ≤ 2 ^ 53) : numberText z = toString z := by
  unfold numberText
  rw [toNumber_exact z hz]
  simp only [numberToString, positiveNumberText_exact _ hz]
  cases z with
  | ofNat n => 
    have : ¬ ((Int.ofNat n) < 0) := Int.not_lt.mpr (Int.ofNat_nonneg n)
    simp only [this, if_false]
    rfl
  | negSucc n =>
    have : (Int.negSucc n) < 0 := Int.negSucc_lt_zero n
    simp only [this, if_true]
    rfl

theorem sign_not_space :
    isStrWhiteSpaceChar '+' = false ∧ isStrWhiteSpaceChar '-' = false := by
  decide

theorem hasHexPrefix_false_strip (S : List Char) (h : hasHexPrefix S = false) :
    stripPrefix S = (10, S) := by
  unfold stripPrefix
  split
  · simp [hasHexPrefix] at h
  · simp [hasHexPrefix] at h
  · rfl

theorem dropWhile_space_append (ws T : List Char)
    (hws : ∀ c ∈ ws, isStrWhiteSpaceChar c = true)
    (hT : ∀ c, T.head? = some c → isStrWhiteSpaceChar c = false) :
    (ws ++ T).dropWhile isStrWhiteSpaceChar = T := by
  rw [List.dropWhile_append_of_pos hws]
  cases T with
  | nil => rfl
  | cons c cs => simp [List.dropWhile_cons, hT c rfl]

theorem takeWhile_run {f : Char → Bool} (ds rest : List Char)
    (hds : ∀ c ∈ ds, f c = true) (hrest : ∀ c, rest.head? = some c → f c = false) :
    (ds ++ rest).takeWhile f = ds := by
  rw [List.takeWhile_append_of_pos hds]
  cases rest with
  | nil => simp
  | cons r rs => simp [List.takeWhile_cons, hrest r rfl]

/-- The digits part of `parseInt`: what is computed once white space and sign
are gone. -/
theorem parseInt_signed (ws sg T : List Char)
    (hws : ∀ c ∈ ws, isStrWhiteSpaceChar c = true)
    (hsg : sg = [] ∨ sg = ['+'] ∨ sg = ['-'])
    (hT : sg = [] → ∀ c, T.head? = some c →
      isStrWhiteSpaceChar c = false ∧ c ≠ '+' ∧ c ≠ '-') :
    parseInt ⟨ws ++ (sg ++ T)⟩
      = if (stripPrefix T).2.takeWhile (isRadixDigit (stripPrefix T).1) = [] then .nan
        else toNumber (signOf sg
          * (digitsValue (stripPrefix T).1
              ((stripPrefix T).2.takeWhile (isRadixDigit (stripPrefix T).1)) : Int)) := by
  have hhead : ∀ c, (sg ++ T).head? = some c → isStrWhiteSpaceChar c = false := by
    intro c hc
    rcases hsg with h | h | h
    · subst h; exact (hT rfl c (by simpa using hc)).1
    · subst h
      simp only [List.singleton_append, List.head?_cons, Option.some.injEq] at hc
      subst hc; exact sign_not_space.1
    · subst h
      simp only [List.singleton_append, List.head?_cons, Option.some.injEq] at hc
      subst hc; exact sign_not_space.2
  unfold parseInt
  simp only [dropWhile_space_append ws (sg ++ T) hws hhead]
  rcases hsg with h | h | h
  · subst h
    have h1 : T.head? ≠ some '+' := fun e => (hT rfl '+' e).2.1 rfl
    have h2 : T.head? ≠ some '-' := fun e => (hT rfl '-' e).2.2 rfl
    simp only [List.nil_append, h1, h2, or_self, if_false, signOf]
    simp
  · subst h
    simp [signOf]
  · subst h
    simp [signOf]

theorem parseInt_decimal (ws sg ds rest : List Char)
    (hws : ∀ c ∈ ws, isStrWhiteSpaceChar c = true)
    (hsg : sg = [] ∨ sg = ['+'] ∨ sg = ['-'])
    (hds : ∀ c ∈ ds, c.isDigit = true)
    (hrest : ∀ c, rest.head? = some c → c.isDigit = false
      ∧ (ds = [] → sg = [] → isStrWhiteSpaceChar c = false ∧ c ≠ '+' ∧ c ≠ '-'))
    (hhex : hasHexPrefix (ds ++ rest) = false) :
    parseInt ⟨ws ++ (sg ++ (ds ++ rest))⟩
      = if ds = [] then .nan else toNumber (signOf sg * (digitsValue 10 ds : Int)) := by
  have hT : sg = [] → ∀ c, (ds ++ rest).head? = some c →
      isStrWhiteSpaceChar c = false ∧ c ≠ '+' ∧ c ≠ '-' := by
    intro hs c hc
    cases ds with
    | nil => exact (hrest c (by simpa using hc)).2 rfl hs
    | cons d ds' =>
      simp only [List.cons_append, List.head?_cons, Option.some.injEq] at hc
      subst hc
      exact isDigit_not_space _ (hds _ (List.mem_cons_self _ _))
  rw [parseInt_signed ws sg (ds ++ rest) hws hsg hT, hasHexPrefix_false_strip _ hhex]
  simp only
  rw [takeWhile_run ds rest (fun c hc => by rw [isRadixDigit_ten]; exact hds c hc)
    (fun c hc => by rw [isRadixDigit_ten]; exact (hrest c hc).1)]

theorem parseInt_hex (ws sg hs rest : List Char) (x : Char)
    (hws : ∀ c ∈ ws, isStrWhiteSpaceChar c = true)
    (hsg : sg = [] ∨ sg = ['+'] ∨ sg = ['-'])
    (hx : x = 'x' ∨ x = 'X')
    (hhs : ∀ c ∈ hs, isHexDigitChar c = true)
    (hrest : ∀ c, rest.head? = some c → isHexDigitChar c = false) :
    parseInt ⟨ws ++ (sg ++ ('0' :: x :: (hs ++ rest)))⟩
      = if hs = [] then .nan else toNumber (signOf sg * (digitsValue 16 hs : Int)) := by
  have hT : sg = [] → ∀ c, ('0' :: x :: (hs ++ rest)).head? = some c →
      isStrWhiteSpaceChar c = false ∧ c ≠ '+' ∧ c ≠ '-' := by
    intro _ c hc
    simp only [List.head?_cons, Option.some.injEq] at hc
    subst hc
    decide
  have hstrip : stripPrefix ('0' :: x :: (hs ++ rest)) = (16, hs ++ rest) := by
    rcases hx with h | h <;> subst h <;> rfl
  rw [parseInt_signed ws sg _ hws hsg hT, hstrip]
  simp only
  rw [takeWhile_run hs rest (fun c hc => by rw [isRadixDigit_sixteen]; exact hhs c hc)
    (fun c hc => by rw [isRadixDigit_sixteen]; exact hrest c hc)]

theorem parseInt_numberText (z : Int) (hz : z.natAbs ≤ 2 ^ 53) :
    parseInt (numberText z) = .fin z := by
  rw [numberText_exact z hz]
  cases z with
  | ofNat n =>
    obtain ⟨hne, hdig, hval⟩ := natRepr_spec n
    have h := parseInt_decimal [] [] (toString n).data [] (by simp) (Or.inl rfl) hdig
      (by simp) (by rw [List.append_nil]; exact hasHexPrefix_digits _ hdig)
    simp only [List.nil_append, List.append_nil, hne, if_false, hval, signOf] at h
    have e : (toString (Int.ofNat n) : String) = ⟨(toString n).data⟩ := rfl
    rw [e, h]
    simp only [List.nil_eq, reduceCtorEq, if_false, one_mul]
    exact toNumber_exact _ hz
  | negSucc n =>
    obtain ⟨hne, hdig, hval⟩ := natRepr_spec (n + 1)
    have h := parseInt_decimal [] ['-'] (toString (n + 1)).data [] (by simp)
      (Or.inr (Or.inr rfl)) hdig (by simp)
      (by rw [List.append_nil]; exact hasHexPrefix_digits _ hdig)
    simp only [List.nil_append, List.append_nil, hne, if_false, hval, signOf, if_true] at h
    have e : (toString (Int.negSucc n) : String) = ⟨['-'] ++ (toString (n + 1)).data⟩ := rfl
    rw [e, h]
    have e2 : (-1 : Int) * ((n + 1 : Nat) : Int) = Int.negSucc n := by
      rw [Int.negSucc_eq]; push_cast; ring
    rw [e2]
    exact toNumber_exact _ hz

theorem serialize_exact (z : Int) (hz : z.natAbs ≤ 2 ^ 53) :
    serializeJSONValue (.num (.fin z)) = toString z := by
  have h := numberText_exact z hz
  unfold numberText at h
  rw [toNumber_exact z hz] at h
  simpa only [serializeJSONValue] using h

/-! ## Search query -/

/-- C1 (as stated, refuted): field values enter the query string verbatim.  With
"a&" in the type field the string ends in "&"; with "a&product_id=1" in the name
field and an empty product_id field the string is the one built from name "a"
and product_id "1", so it carries a product_id pair although that field is
empty. -/
theorem search_query_verbatim_counterexample :
    search_queryString (formPage "" "" "" "" "a&") = "recommendation_type=a&"
      ∧ (search_queryString (formPage "" "" "" "" "a&")).data.getLast? = some '&'
      ∧ search_queryString (formPage "" "a&product_id=1" "" "" "") = "name=a&product_id=1"
      ∧ search_queryString (formPage "" "a&product_id=1" "" "" "")
          = search_queryString (formPage "" "a" "1" "" "") := by
  decide

/-- C1 (amended): for every form state whose field values hold no "&", the query
string is the "&"-join of the pairs key=value of the fields holding a non-empty
value, each once, in the order name, product_id, recommended_product_id,
recommendation_type: it neither starts nor ends with "&", it holds one "&" fewer
than there are pairs, and cutting it at "&" gives back exactly those pairs.
For every form state whatsoever the string is that join, never starts with "&",
and ends with the last character of the last non-empty value.  With only
product_id = "10" it is "product_id=10"; with all four fields empty it is
empty. -/
theorem search_query_construction (p : Page)
    (hamp : ∀ kv ∈ searchFields p, '&' ∉ kv.2.data) :
    search_queryString p
        = "&".intercalate ((activeFilters p).map fun kv => kv.1 ++ "=" ++ kv.2)
      ∧ (activeFilters p).Sublist (searchFields p)
      ∧ (∀ kv ∈ searchFields p, (kv ∈ activeFilters p ↔ kv.2 ≠ ""))
      ∧ (search_queryString p).data.head? ≠ some '&'
      ∧ (search_queryString p).data.getLast? ≠ some '&'
      ∧ (search_queryString p).data.count '&' = (activeFilters p).length - 1
      ∧ (match activeFilters p with
          | [] => search_queryString p = ""
          | kv :: kvs =>
            (search_queryString p).data.splitOn '&'
              = (kv :: kvs).map fun kv => (kv.1 ++ "=" ++ kv.2).data)
      ∧ (search_btn_click p).2.url = "/recommendations?" ++ search_queryString p
      ∧ (∀ q : Page,
          search_queryString q
              = "&".intercalate ((activeFilters q).map fun kv => kv.1 ++ "=" ++ kv.2)
            ∧ (search_queryString q).data.head? ≠ some '&'
            ∧ (search_queryString q).data.getLast?
                = ((activeFilters q).getLast?.bind fun kv => kv.2.data.getLast?)
            ∧ (search_queryString q).data.count '&'
                = ((activeFilters q).length - 1)
                  + ((activeFilters q).map fun kv => kv.2.data.count '&').sum)
      ∧ search_queryString (formPage "" "" "10" "" "") = "product_id=10"
      ∧ (∀ i f r : String,
          search_queryString
              { rec_id := i, rec_name := "", product_id := "", recommended_product_id := "",
                rec_type := "", flash_message := f, search_results := r } = "") := by
  have hval : ∀ kv ∈ activeFilters p, '&' ∉ kv.2.data := fun kv hkv =>
    hamp kv (List.mem_filter.mp hkv).1
  have hcount : ((activeFilters p).map fun kv => kv.2.data.count '&').sum = 0 := by
    apply List.sum_eq_zero
    intro n hn
    obtain ⟨kv, hkv, rfl⟩ := List.mem_map.mp hn
    exact List.count_eq_zero_of_not_mem (hval kv hkv)
  have hgen : ∀ q : Page,
      (search_queryString q).data.count '&'
        = ((activeFilters q).length - 1)
          + ((activeFilters q).map fun kv => kv.2.data.count '&').sum := by
    intro q
    rw [search_queryString_eq]
    exact count_intercalate_pairs _ (activeFilters_key_count q)
  refine ⟨search_queryString_eq p, List.filter_sublist _,
    fun kv hkv => by simp [activeFilters, hkv], search_queryString_head? p, ?_, ?_, ?_, rfl,
    fun q => ⟨search_queryString_eq q, search_queryString_head? q,
      search_queryString_getLast? q, hgen q⟩,
    by decide, fun _ _ _ => by simp [search_queryString, truthy]⟩
  · rw [search_queryString_getLast?]
    intro h
    obtain ⟨kv, hkv, hlast⟩ := Option.bind_eq_some.mp h
    exact hval kv (List.mem_of_mem_getLast? hkv) (List.mem_of_mem_getLast? hlast)
  · rw [hgen p, hcount, Nat.add_zero]
  · have hpairs : ∀ l ∈ (activeFilters p).map (fun kv => (kv.1 ++ "=" ++ kv.2).data),
        '&' ∉ l := by
      intro l hl
      obtain ⟨kv, hkv, rfl⟩ := List.mem_map.mp hl
      have hk : '&' ∉ kv.1.data := fun hm =>
        absurd (activeFilters_key_count p kv hkv) (Nat.pos_iff_ne_zero.mp
          (List.count_pos_iff.mpr hm))
      have he : '&' ∉ "=".data := by decide
      simp only [String.data_append, List.mem_append, not_or]
      exact ⟨⟨hk, he⟩, hval kv hkv⟩
    have hq := search_queryString_eq p
    cases hact : activeFilters p with
    | nil =>
      rw [hact] at hq
      simpa using hq
    | cons kv kvs =>
      rw [hact] at hq hpairs
      simp only
      rw [hq, data_intercalate, List.map_map]
      exact List.splitOn_intercalate _ '&' hpairs (List.cons_ne_nil _ _)

/-- C1 (amended), at the form holding name "Blue" and product_id "10": the
query string cut at "&" is the name pair followed by the product_id pair. -/
theorem search_query_construction_witness :
    (search_queryString (formPage "" "Blue" "10" "" "")).data.count '&' = 1
      ∧ search_queryString (formPage "" "Blue" "10" "" "") = "name=Blue&product_id=10" :=
  ⟨(search_query_construction (formPage "" "Blue" "10" "" "") (by decide)).2.2.2.2.2.1,
    by decide⟩

/-! ## Failure handling -/

/-- C2 (as stated, refuted): a failed create whose decoded body has no `message`
leaves the message area empty instead of showing "Server error!", and so do the
update, retrieve and search failure handlers; a failed create whose body could
not be decoded ends in an exception with nothing shown. -/
theorem failure_fallback_counterexample :
    (create_ajax_fail ⟨some ⟨none⟩⟩ (formPage "7" "a" "1" "2" "up-sell")).page.flash_message = ""
      ∧ (update_ajax_fail ⟨some ⟨none⟩⟩ (formPage "7" "a" "1" "2" "up-sell")).page.flash_message
          ≠ "Server error!"
      ∧ (retrieve_ajax_fail ⟨some ⟨none⟩⟩ (formPage "7" "a" "1" "2" "up-sell")).page.flash_message
          ≠ "Server error!"
      ∧ (search_ajax_fail ⟨some ⟨none⟩⟩ (formPage "7" "a" "1" "2" "up-sell")).page.flash_message
          ≠ "Server error!"
      ∧ create_ajax_fail ⟨none⟩ (formPage "7" "a" "1" "2" "up-sell")
          = .threw (formPage "7" "a" "1" "2" "up-sell") := by
  decide

/-- C2 (amended): when the body of a failed create, update, retrieve or search
response decoded to a JSON object, the failure handler runs to its end and the
message area holds the body's `message` when there is one and nothing when there
is none; create, update and search leave the form as it was, retrieve clears it. -/
theorem failure_message_from_body (body : ErrorBody) (p : Page) :
    create_ajax_fail ⟨some body⟩ p
        = .returned { p with flash_message := body.message.getD "" }
      ∧ update_ajax_fail ⟨some body⟩ p
        = .returned { p with flash_message := body.message.getD "" }
      ∧ search_ajax_fail ⟨some body⟩ p
        = .returned { p with flash_message := body.message.getD "" }
      ∧ retrieve_ajax_fail ⟨some body⟩ p
        = .returned { clear_form_data p with flash_message := body.message.getD "" } := by
  obtain ⟨m⟩ := body
  cases m <;>
    simp [create_ajax_fail, update_ajax_fail, search_ajax_fail, retrieve_ajax_fail,
      flash_message, clear_form_data, String.ext_iff]

/-- C3 (as stated, refuted): a failed retrieve on a form whose id field reads
"999" leaves the id field empty, not at "999". -/
theorem retrieve_fail_keeps_id_counterexample :
    (retrieve_ajax_fail ⟨some ⟨some "Recommendation 999 not found"⟩⟩
        (formPage "999" "" "" "" "")).page.rec_id = ""
      ∧ (retrieve_ajax_fail ⟨some ⟨some "Recommendation 999 not found"⟩⟩
        (formPage "999" "" "" "" "")).page.rec_id ≠ "999" := by
  decide

/-- C3 (amended): for every form state and every failure response, the
clear-on-failure path of a failed retrieve empties all five form fields, the id
field included, and the standalone clear command empties the same five fields:
both leave the same form. -/
theorem clear_paths_empty_all_fields (res : JqXHR) (p : Page) :
    ((retrieve_ajax_fail res p).page.rec_id = ""
        ∧ (retrieve_ajax_fail res p).page.rec_name = ""
        ∧ (retrieve_ajax_fail res p).page.product_id = ""
        ∧ (retrieve_ajax_fail res p).page.recommended_product_id = ""
        ∧ (retrieve_ajax_fail res p).page.rec_type = "")
      ∧ ((clear_btn_click p).rec_id = ""
        ∧ (clear_btn_click p).rec_name = ""
        ∧ (clear_btn_click p).product_id = ""
        ∧ (clear_btn_click p).recommended_product_id = ""
        ∧ (clear_btn_click p).rec_type = "")
      ∧ clear_form_data p
        = { p with
            rec_id := "", rec_name := "", product_id := "",
            recommended_product_id := "", rec_type := "" } := by
  obtain ⟨j⟩ := res
  cases j with
  | none => simp [retrieve_ajax_fail, clear_btn_click, clear_form_data, Completion.page]
  | some body =>
    obtain ⟨m⟩ := body
    cases m <;>
      simp [retrieve_ajax_fail, clear_btn_click, clear_form_data, Completion.page,
        flash_message]

/-- C4: for every form state and every failure response, the delete failure
handler sets the message to exactly "Server error!" and leaves the five form
fields (and the result area) as they were. -/
theorem delete_fail_fixed_message (res : JqXHR) (p : Page) :
    delete_ajax_fail res p = { p with flash_message := "Server error!" }
      ∧ (delete_ajax_fail res p).flash_message = "Server error!"
      ∧ (delete_ajax_fail res p).rec_id = p.rec_id
      ∧ (delete_ajax_fail res p).rec_name = p.rec_name
      ∧ (delete_ajax_fail res p).product_id = p.product_id
      ∧ (delete_ajax_fail res p).recommended_product_id = p.recommended_product_id
      ∧ (delete_ajax_fail res p).rec_type = p.rec_type := by
  simp [delete_ajax_fail, flash_message, String.ext_iff]

/-- C5: for every prior form state and every success response, the delete
success handler empties all five form fields and sets the message to exactly
"Recommendation has been Deleted!"; the page it leaves does not depend on the
prior form content or message, and running it twice equals running it once. -/
theorem delete_done_clears_form {α : Type} (res : α) (p : Page) :
    delete_ajax_done res p
        = { rec_id := "", rec_name := "", product_id := "", recommended_product_id := "",
            rec_type := "", flash_message := "Recommendation has been Deleted!",
            search_results := p.search_results }
      ∧ (∀ i n a b t m : String,
          delete_ajax_done res
              { p with
                rec_id := i, rec_name := n, product_id := a,
                recommended_product_id := b, rec_type := t, flash_message := m }
            = delete_ajax_done res p)
      ∧ delete_ajax_done res (delete_ajax_done res p) = delete_ajax_done res p := by
  simp [delete_ajax_done, flash_message, clear_form_data, String.ext_iff]

/-! ## Requests -/

/-- C6: for every form state the create command issues a POST to
"/recommendations" whose body is the JSON text of an object with exactly the keys
name, product_id, recommended_product_id, recommendation_type, in that order,
holding the name text, `parseInt` of the two product id texts and the type text.
Read back, the body text has those four members and no other, so no id key,
whatever the texts are; for product id texts that are decimal numerals up to
2^53 the members are those integers; the request does not depend on the id
field. -/
theorem create_request (p : Page) :
    (create_btn_click p).2
        = { type := "POST", url := "/recommendations", contentType := "application/json",
            data := JSON.stringify
              [("name", .str p.rec_name),
               ("product_id", .num (parseInt p.product_id)),
               ("recommended_product_id", .num (parseInt p.recommended_product_id)),
               ("recommendation_type", .str p.rec_type)] }
      ∧ (create_data p).map Prod.fst
          = ["name", "product_id", "recommended_product_id", "recommendation_type"]
      ∧ "id" ∉ (create_data p).map Prod.fst
      ∧ (∀ i : String, (create_btn_click { p with rec_id := i }).2 = (create_btn_click p).2)
      ∧ (create_btn_click (formPage "" "Blue Widget Combo" "10" "20" "cross-sell")).2.data
          = "\x7b\"name\":\"Blue Widget Combo\",\"product_id\":10,"
            ++ "\"recommended_product_id\":20,\"recommendation_type\":\"cross-sell\"\x7d"
      ∧ readJSONObject (create_btn_click p).2.data
          = some [("name", .string p.rec_name),
              ("product_id", .literal (serializeJSONValue (.num (parseInt p.product_id)))),
              ("recommended_product_id",
                .literal (serializeJSONValue (.num (parseInt p.recommended_product_id)))),
              ("recommendation_type", .string p.rec_type)]
      ∧ (readJSONObject (create_btn_click p).2.data).map (List.map Prod.fst)
          = some ["name", "product_id", "recommended_product_id", "recommendation_type"]
      ∧ (∀ a b : Nat, 2 ^ 53 < a ∨ 2 ^ 53 < b
          ∨ readJSONObject
              (create_btn_click
                { p with product_id := toString a, recommended_product_id := toString b }).2.data
            = some [("name", .string p.rec_name), ("product_id", .literal (toString a)),
                ("recommended_product_id", .literal (toString b)),
                ("recommendation_type", .string p.rec_type)])
      ∧ readJSONObject
          (create_btn_click
            (formPage "" "a\",\"id\":\"5" "1000000000000000000000" "9007199254740993" "")).2.data
          = some [("name", .string "a\",\"id\":\"5"), ("product_id", .literal "1e+21"),
              ("recommended_product_id", .literal "9007199254740992"),
              ("recommendation_type", .string "")]
      ∧ parseInt (String.mk ('1' :: List.replicate 309 '0')) = .infinity false
      ∧ serializeJSONValue (.num (.infinity false)) = "null" := by
  have hread := readJSONObject_payload p.rec_name p.rec_type (parseInt p.product_id)
    (parseInt p.recommended_product_id)
  refine ⟨rfl, rfl, by simp [create_data], fun _ => rfl, by decide!, hread, ?_, ?_,
    by decide!, by decide!, rfl⟩
  · rw [show (create_btn_click p).2.data
        = JSON.stringify
            [("name", .str p.rec_name), ("product_id", .num (parseInt p.product_id)),
             ("recommended_product_id", .num (parseInt p.recommended_product_id)),
             ("recommendation_type", .str p.rec_type)] from rfl, hread]
    rfl
  · intro a b
    by_cases ha : 2 ^ 53 < a
    · exact Or.inl ha
    by_cases hb : 2 ^ 53 < b
    · exact Or.inr (Or.inl hb)
    refine Or.inr (Or.inr ?_)
    have ha' : (a : Int).natAbs ≤ 2 ^ 53 := by simpa using Nat.le_of_not_lt ha
    have hb' : (b : Int).natAbs ≤ 2 ^ 53 := by simpa using Nat.le_of_not_lt hb
    have ea : parseInt (toString a) = .fin (a : Int) := by
      have := parseInt_numberText (a : Int) ha'
      rwa [numberText_exact _ ha'] at this
    have eb : parseInt (toString b) = .fin (b : Int) := by
      have := parseInt_numberText (b : Int) hb'
      rwa [numberText_exact _ hb'] at this
    have h := readJSONObject_payload p.rec_name p.rec_type (.fin (a : Int)) (.fin (b : Int))
    rw [serialize_exact _ ha', serialize_exact _ hb'] at h
    rw [show (create_btn_click
          { p with product_id := toString a, recommended_product_id := toString b }).2.data
        = JSON.stringify
            [("name", .str p.rec_name), ("product_id", .num (parseInt (toString a))),
             ("recommended_product_id", .num (parseInt (toString b))),
             ("recommendation_type", .str p.rec_type)] from rfl, ea, eb]
    exact h

/-- C7: for every form state, an empty id field included, the update command
issues one PUT to "/recommendations/" followed by the id field's text, with the
same JSON body the create command builds from that form state; with an empty id
the request still goes out, to "/recommendations/". -/
theorem update_request (p : Page) :
    (update_btn_click p).2
        = { type := "PUT", url := "/recommendations/" ++ p.rec_id,
            contentType := "application/json", data := (create_btn_click p).2.data }
      ∧ update_data p = create_data p
      ∧ (update_btn_click { p with rec_id := "" }).2
        = { type := "PUT", url := "/recommendations/",
            contentType := "application/json", data := (create_btn_click p).2.data } := by
  refine ⟨rfl, rfl, ?_⟩
  simp [update_btn_click, create_btn_click, update_data, create_data]

/-! ## Success handling -/

/-- C8: for every prior form state and every returned record, the success
handlers of create, update and retrieve overwrite the five form fields with the
text of the record's id, name, product_id, recommended_product_id and
recommendation_type, whatever the form held before, and set the message to
exactly "Success"; the text of a number is its decimal numeral for every integer
up to 2^53 in magnitude (beyond that it is the text of the nearest double, such
as "1e+21"); a create answered with id 42 leaves "42" in the id field. -/
theorem success_populates_form (res : Recommendation) (p : Page) :
    create_ajax_done res p
        = { rec_id := numberText res.id, rec_name := res.name,
            product_id := numberText res.product_id,
            recommended_product_id := numberText res.recommended_product_id,
            rec_type := res.recommendation_type, flash_message := "Success",
            search_results := p.search_results }
      ∧ update_ajax_done res p = create_ajax_done res p
      ∧ retrieve_ajax_done res p = create_ajax_done res p
      ∧ (create_ajax_done
            { id := 42, name := "Blue Widget Combo", product_id := 10,
              recommended_product_id := 20, recommendation_type := "cross-sell",
              created_at := "2024-07-01T00:00:00", updated_at := "2024-07-01T00:00:00" }
            (formPage "" "Blue Widget Combo" "10" "20" "cross-sell"))
          = { rec_id := "42", rec_name := "Blue Widget Combo", product_id := "10",
              recommended_product_id := "20", rec_type := "cross-sell",
              flash_message := "Success", search_results := "" }
      ∧ (∀ z : Int, 2 ^ 53 < z.natAbs ∨ numberText z = toString z)
      ∧ numberText (10 ^ 21) = "1e+21"
      ∧ numberText 9007199254740993 = "9007199254740992"
      ∧ numberText (2 ^ 64) = "18446744073709552000" := by
  refine ⟨?_, rfl, rfl, by decide!, ?_, by decide!, by decide!, by decide!⟩
  · simp [create_ajax_done, flash_message, update_form_data, String.ext_iff]
  · intro z
    by_cases hz : 2 ^ 53 < z.natAbs
    · exact Or.inl hz
    · exact Or.inr (numberText_exact z (Nat.le_of_not_lt hz))

/-- C9 (as stated, refuted): record texts enter the table markup verbatim.  One
returned record whose name holds row markup gives the very result area that two
records give, and that area reads back as two rows. -/
theorem search_rows_markup_counterexample :
    (search_ajax_done
        [{ id := 1, name := "x</td><td>2</td><td>3</td><td>t</td><td>c</td><td>u</td></tr>"
              ++ "<tr id=\"row_1\"><td>1</td><td>y",
           product_id := 2, recommended_product_id := 3, recommendation_type := "t",
           created_at := "c", updated_at := "u" }]
        (formPage "" "" "" "" "")).search_results
      = (search_ajax_done
          [{ id := 1, name := "x", product_id := 2, recommended_product_id := 3,
             recommendation_type := "t", created_at := "c", updated_at := "u" },
           { id := 1, name := "y", product_id := 2, recommended_product_id := 3,
             recommendation_type := "t", created_at := "c", updated_at := "u" }]
          (formPage "" "" "" "" "")).search_results
      ∧ readTable
          (search_ajax_done
            [{ id := 1, name := "x</td><td>2</td><td>3</td><td>t</td><td>c</td><td>u</td></tr>"
                  ++ "<tr id=\"row_1\"><td>1</td><td>y",
               product_id := 2, recommended_product_id := 3, recommendation_type := "t",
               created_at := "c", updated_at := "u" }]
            (formPage "" "" "" "" "")).search_results
        = some [("0", ["1", "x", "2", "3", "t", "c", "u"]),
            ("1", ["1", "y", "2", "3", "t", "c", "u"])] := by
  decide!

/-- C9 (amended): for every prior page and every returned list of records whose
name, type and time texts hold no "<", the result area is the table head, one row
per record in the order returned, and the table end: read back, it has exactly
one row for each record, row `k` carrying index `k` and the seven values of
record `k`.  The message is "Success"; with an empty list the table has no rows
and the five form fields keep their values, and with a non-empty list the form
fields are set from the first record; these hold for every returned list. -/
theorem search_done_renders (res : List Recommendation) (p : Page)
    (hres : ∀ r ∈ res, plainText r) :
    readTable (search_ajax_done res p).search_results = some (tableCells 0 res)
      ∧ (tableCells 0 res).length = res.length
      ∧ (∀ k : Nat, (tableCells 0 res)[k]? = res[k]?.map (rowCells k))
      ∧ (∀ l : List Recommendation,
          (search_ajax_done l p).search_results
              = search_table_head ++ String.join (tableRows 0 l) ++ "</tbody></table>"
            ∧ (tableRows 0 l).length = l.length
            ∧ (∀ k : Nat, (tableRows 0 l)[k]? = l[k]?.map (search_table_row k))
            ∧ (search_ajax_done l p).flash_message = "Success")
      ∧ search_ajax_done [] p
        = { p with
            flash_message := "Success"
            search_results := search_table_head ++ "</tbody></table>" }
      ∧ readTable (search_ajax_done [] p).search_results = some []
      ∧ (∀ (r : Recommendation) (rs : List Recommendation),
          (search_ajax_done (r :: rs) p).rec_id = numberText r.id
            ∧ (search_ajax_done (r :: rs) p).rec_name = r.name
            ∧ (search_ajax_done (r :: rs) p).product_id = numberText r.product_id
            ∧ (search_ajax_done (r :: rs) p).recommended_product_id
                = numberText r.recommended_product_id
            ∧ (search_ajax_done (r :: rs) p).rec_type = r.recommendation_type) := by
  have hmark : ∀ l : List Recommendation, (search_ajax_done l p).search_results
      = search_table_head ++ String.join (tableRows 0 l) ++ "</tbody></table>" := by
    intro l
    rw [search_ajax_done_eq]
    cases l.head? <;> simp [flash_message, update_form_data]
  refine ⟨?_, tableCells_length res 0, ?_, ?_, ?_, ?_, ?_⟩
  · rw [hmark]
    exact readTable_rows res hres
  · intro k
    simpa using tableCells_getElem? res 0 k
  · intro l
    refine ⟨hmark l, tableRows_length l 0, ?_, ?_⟩
    · intro k
      simpa using tableRows_getElem? l 0 k
    · rw [search_ajax_done_eq]
      cases l.head? <;> simp [flash_message, update_form_data, String.ext_iff]
  · rw [search_ajax_done_eq]
    simp [flash_message, tableRows, String.join, String.ext_iff]
  · rw [hmark]
    exact readTable_rows [] (fun r hr => absurd hr (List.not_mem_nil r))
  · intro r rs
    rw [search_ajax_done_eq]
    simp [flash_message, update_form_data]

/-- C9 (amended), at a list of two plain records: the result area reads back as
their two rows, in order. -/
theorem search_done_renders_witness :
    readTable
        (search_ajax_done
          [{ id := 7, name := "Blue Widget Combo", product_id := 10,
             recommended_product_id := 20, recommendation_type := "cross-sell",
             created_at := "2024-07-01", updated_at := "2024-07-02" },
           { id := 9, name := "Red Cap", product_id := 11,
             recommended_product_id := 21, recommendation_type := "up-sell",
             created_at := "2024-07-03", updated_at := "2024-07-04" }]
          (formPage "" "" "" "" "")).search_results
      = some (tableCells 0
          [{ id := 7, name := "Blue Widget Combo", product_id := 10,
             recommended_product_id := 20, recommendation_type := "cross-sell",
             created_at := "2024-07-01", updated_at := "2024-07-02" },
           { id := 9, name := "Red Cap", product_id := 11,
             recommended_product_id := 21, recommendation_type := "up-sell",
             created_at := "2024-07-03", updated_at := "2024-07-04" }]) :=
  (search_done_renders _ (formPage "" "" "" "" "")
    (by
      intro r hr
      simp only [List.mem_cons, List.mem_singleton, List.not_mem_nil, or_false] at hr
      rcases hr with h | h <;> subst h <;> unfold plainText <;> decide)).1

/-! ## Integer coercion -/

/-- C10 (as stated, refuted): with "12abc" in the product_id field the create
and update payloads carry the integer 12 for product_id, not `NaN`. -/
theorem trailing_garbage_counterexample :
    parseInt "12abc" = .fin 12
      ∧ create_data (formPage "" "Blue Widget Combo" "12abc" "20" "cross-sell")
        = [("name", .str "Blue Widget Combo"), ("product_id", .num (.fin 12)),
           ("recommended_product_id", .num (.fin 20)),
           ("recommendation_type", .str "cross-sell")]
      ∧ update_data (formPage "" "Blue Widget Combo" "12abc" "20" "cross-sell")
        = [("name", .str "Blue Widget Combo"), ("product_id", .num (.fin 12)),
           ("recommended_product_id", .num (.fin 20)),
           ("recommendation_type", .str "cross-sell")] := by
  decide

/-- C10 (amended): in the create and update payloads product_id and
recommended_product_id are `parseInt` of the field texts.  Let a text be white
space `ws`, then a sign `sg` (nothing, "+" or "-"), then the longest run `ds` of
decimal digits, then `rest`, the text not opening with the hexadecimal prefix
after the sign.  Either field holding it carries `NaN` when `ds` is empty, and
otherwise the Number nearest to the signed integer `ds` denotes, whatever `rest`
is; with "0x" or "0X" after the sign the same holds for the run `hs` of
hexadecimal digits after the prefix.  The nearest Number is the integer itself up
to 2^53 in magnitude, and the text of such an integer is read back as that
integer.  `NaN` is written `null` in the body, and the request is built for
every form state. -/
theorem payload_integer_coercion (ws sg ds rest hs tail : List Char) (x : Char)
    (hws : ∀ c ∈ ws, isStrWhiteSpaceChar c = true)
    (hsg : sg = [] ∨ sg = ['+'] ∨ sg = ['-'])
    (hds : ∀ c ∈ ds, c.isDigit = true)
    (hrest : ∀ c, rest.head? = some c → c.isDigit = false
      ∧ (ds = [] → sg = [] → isStrWhiteSpaceChar c = false ∧ c ≠ '+' ∧ c ≠ '-'))
    (hhex : hasHexPrefix (ds ++ rest) = false)
    (hx : x = 'x' ∨ x = 'X')
    (hhs : ∀ c ∈ hs, isHexDigitChar c = true)
    (htail : ∀ c, tail.head? = some c → isHexDigitChar c = false) :
    (∀ i n other t f r : String,
        create_data
            { rec_id := i, rec_name := n, product_id := String.mk (ws ++ (sg ++ (ds ++ rest))),
              recommended_product_id := other, rec_type := t, flash_message := f,
              search_results := r }
          = [("name", .str n),
             ("product_id",
               .num (if ds = [] then .nan
                 else toNumber (signOf sg * (digitsValue 10 ds : Int)))),
             ("recommended_product_id", .num (parseInt other)),
             ("recommendation_type", .str t)]
        ∧ create_data
            { rec_id := i, rec_name := n, product_id := other,
              recommended_product_id := String.mk (ws ++ (sg ++ (ds ++ rest))),
              rec_type := t, flash_message := f, search_results := r }
          = [("name", .str n),
             ("product_id", .num (parseInt other)),
             ("recommended_product_id",
               .num (if ds = [] then .nan
                 else toNumber (signOf sg * (digitsValue 10 ds : Int)))),
             ("recommendation_type", .str t)])
      ∧ parseInt (String.mk (ws ++ (sg ++ ('0' :: x :: (hs ++ tail)))))
          = (if hs = [] then .nan else toNumber (signOf sg * (digitsValue 16 hs : Int)))
      ∧ (∀ q : Page,
          update_data q = create_data q
            ∧ create_data q
              = [("name", .str q.rec_name), ("product_id", .num (parseInt q.product_id)),
                 ("recommended_product_id", .num (parseInt q.recommended_product_id)),
                 ("recommendation_type", .str q.rec_type)]
            ∧ (create_btn_click q).2.data = JSON.stringify (create_data q)
            ∧ (update_btn_click q).2.data = JSON.stringify (create_data q))
      ∧ (∀ z : Int, 2 ^ 53 < z.natAbs
          ∨ (toNumber z = .fin z ∧ parseInt (toString z) = .fin z))
      ∧ (parseInt "" = .nan ∧ parseInt "abc" = .nan ∧ parseInt "-" = .nan
          ∧ parseInt "0x" = .nan ∧ parseInt " 12abc" = .fin 12 ∧ parseInt "-7.5" = .fin (-7)
          ∧ parseInt "0x1F" = .fin 31
          ∧ parseInt (String.mk [Char.ofNat 0x09, Char.ofNat 0xA0, Char.ofNat 0xFEFF, '4', '2'])
              = .fin 42
          ∧ parseInt "9007199254740993" = .fin 9007199254740992)
      ∧ (create_btn_click (formPage "" "Blue Widget Combo" "abc" "" "cross-sell")).2.data
          = "\x7b\"name\":\"Blue Widget Combo\",\"product_id\":null,"
            ++ "\"recommended_product_id\":null,\"recommendation_type\":\"cross-sell\"\x7d" := by
  have hdec := parseInt_decimal ws sg ds rest hws hsg hds hrest hhex
  refine ⟨?_, parseInt_hex ws sg hs tail x hws hsg hx hhs htail,
    fun q => ⟨rfl, rfl, rfl, rfl⟩, ?_, by decide!, by decide!⟩
  · intro i n other t f r
    constructor <;> simp only [create_data, hdec]
  · intro z
    by_cases hz : 2 ^ 53 < z.natAbs
    · exact Or.inl hz
    · have hz' : z.natAbs ≤ 2 ^ 53 := Nat.le_of_not_lt hz
      have h := parseInt_numberText z hz'
      rw [numberText_exact z hz'] at h
      exact Or.inr ⟨toNumber_exact z hz', h⟩

/-- C10 (amended), at the text " -12abc" in the product_id field and at the
text "0x1F": the payload carries -12, and the hexadecimal text reads as 31. -/
theorem payload_integer_coercion_witness :
    create_data
        { rec_id := "", rec_name := "Blue Widget Combo",
          product_id := String.mk ([' '] ++ (['-'] ++ (['1', '2'] ++ ['a', 'b', 'c']))),
          recommended_product_id := "20", rec_type := "cross-sell", flash_message := "",
          search_results := "" }
      = [("name", .str "Blue Widget Combo"),
         ("product_id",
           .num (if ['1', '2'] = [] then .nan
             else toNumber (signOf ['-'] * (digitsValue 10 ['1', '2'] : Int)))),
         ("recommended_product_id", .num (parseInt "20")),
         ("recommendation_type", .str "cross-sell")]
      ∧ toNumber (signOf ['-'] * (digitsValue 10 ['1', '2'] : Int)) = .fin (-12) :=
  ⟨((payload_integer_coercion [' '] ['-'] ['1', '2'] ['a', 'b', 'c'] ['1', 'F'] [] 'x'
      (by decide) (by decide) (by decide)
      (by intro c h; simp only [List.head?_cons, Option.some.injEq] at h; subst h; decide)
      (by decide) (by decide) (by decide)
      (by intro c h; simp at h)).1 "" "Blue Widget Combo" "20" "cross-sell" "" "").1,
    by decide⟩

end RestApi
